import Mathlib

/-!
# Stencila `Dataquery`: directive tree and query compiler

A shallow embedding of `cpp/dataquery.hpp`.  A `Directive` is a node of the query tree; every
node renders itself in two textual forms, `dql` (the notation form) and `sql` (the relational
form).  `Dataquery` accumulates directives in an append log, classifies them lazily into
buckets (`compile`) and assembles the two outputs (`dql`, `sql`).

Strings are Lean `String`s, `std::vector` is `List`, a nullable pointer is `Option`, and the
member functions that mutate the object return the new object explicitly.
-/

namespace Stencila

/-! ## The C++ `float` held by `Order` -/

/-- A value of the C++ type `float`: a NaN, an infinity, or the finite value
`(-1)^neg * mant * 2^exp`.  Every IEEE-754 binary32 value is of one of these forms (the type
also holds finite values outside the binary32 range; nothing below depends on the range).
The sign of a zero is kept, as the machine keeps it. -/
inductive CFloat where
  | nan (neg : Bool)
  | inf (neg : Bool)
  | fin (neg : Bool) (mant : Nat) (exp : Int)

namespace CFloat

/-- The comparison `x > 0` on `float`: false for a NaN and for either zero. -/
def gtZero : CFloat → Bool
  | nan _ => false
  | inf neg => !neg
  | fin neg mant _ => !neg && mant != 0

/-- The comparison `x < 0` on `float`: false for a NaN and for either zero. -/
def ltZero : CFloat → Bool
  | nan _ => false
  | inf neg => neg
  | fin neg mant _ => neg && mant != 0

/-- The comparison `x == 0` on `float`: true exactly for the two zeros. -/
def eqZero : CFloat → Bool
  | fin _ mant _ => mant == 0
  | _ => false

/-- The comparison `x != 1` on `float` (`Order::dql`, line 306): true for a NaN, an infinity
and every finite value other than one. -/
def neOne : CFloat → Bool
  | fin neg mant exp =>
    !(!neg && (if 0 ≤ exp then mant * 2 ^ exp.toNat == 1 else mant == 2 ^ (-exp).toNat))
  | _ => true

/-- The `float` 1, the default direction of `Order` (`const float& dir=1`). -/
def one : CFloat := fin false 1 0

/-- Conversion of an integer argument to `float` (round to nearest, ties to even, on the
24-bit significand). -/
def ofInt (d : Int) : CFloat :=
  let a := d.natAbs
  if a < 2 ^ 24 then fin (decide (d < 0)) a 0
  else
    let bits := (Nat.toDigits 2 a).length
    let shift := bits - 24
    let q := a / 2 ^ shift
    let r := a % 2 ^ shift
    let half := 2 ^ (shift - 1)
    let q := if half < r ∨ (r = half ∧ q % 2 = 1) then q + 1 else q
    if 128 < bits ∨ (bits = 128 ∧ q = 2 ^ 24) then inf (decide (d < 0))
    else fin (decide (d < 0)) q shift

end CFloat

/-! ## Number formatting (`boost::lexical_cast<std::string>`) -/

/-- Smallest `k ≤ fuel` with `den ≤ num * 10^k` (searching upwards from `k`). -/
def decimalShift (num den : Nat) : Nat → Nat → Nat
  | 0, k => k
  | fuel + 1, k => if den ≤ num * 10 ^ k then k else decimalShift num den fuel (k + 1)

/-- Decimal exponent of the positive rational `num / den`: the `X` with
`10^X ≤ num / den < 10^(X+1)`. -/
def decimalExponent (num den : Nat) : Int :=
  if den ≤ num then (((Nat.repr (num / den)).length - 1 : Nat) : Int)
  else -((decimalShift num den ((Nat.repr den).length + 1) 0 : Nat) : Int)

/-- The positive rational `num / den` scaled by `10^(8 - X)` and rounded to the nearest
integer, ties to even: its nine significant decimal digits when `X` is its decimal
exponent. -/
def significand9 (num den : Nat) (X : Int) : Nat :=
  let n := if X ≤ 8 then num * 10 ^ (8 - X).toNat else num
  let d := if X ≤ 8 then den else den * 10 ^ (X - 8).toNat
  let q := n / d
  let r := n % d
  if d < 2 * r ∨ (2 * r = d ∧ q % 2 = 1) then q + 1 else q

/-- Drop the trailing `'0'` characters of a digit list. -/
def stripZeros (ds : List Char) : List Char :=
  (ds.reverse.dropWhile (fun c => c == '0')).reverse

/-- Text of `printf("%.9g")` for the positive rational `num / den` (`0 < num`, `0 < den`):
nine significant digits, exponent style when the decimal exponent is below -4 or at least 9,
trailing zeros of the fraction removed. -/
def formatG9 (num den : Nat) : String :=
  let X0 := decimalExponent num den
  let m0 := significand9 num den X0
  let X := if 10 ^ 9 ≤ m0 then X0 + 1 else X0
  let m := if 10 ^ 9 ≤ m0 then 10 ^ 8 else m0
  let ds := (Nat.repr m).toList
  if X < -4 ∨ 9 ≤ X then
    let frac := stripZeros (ds.drop 1)
    let e := X.natAbs
    String.mk (ds.take 1 ++ (if frac.isEmpty then [] else '.' :: frac))
      ++ (if X < 0 then "e-" else "e+") ++ (if e < 10 then "0" else "") ++ Nat.repr e
  else if 0 ≤ X then
    let frac := stripZeros (ds.drop (X.toNat + 1))
    String.mk (ds.take (X.toNat + 1) ++ (if frac.isEmpty then [] else '.' :: frac))
  else
    String.mk ('0' :: '.' :: List.replicate ((-X).toNat - 1) '0' ++ stripZeros ds)

/-- Model of `boost::lexical_cast<std::string>(float)` (Boost, Linux): `"nan"` and `"inf"`
with their sign for the special values, and otherwise the text of `printf("%.9g")`, nine
being the number of decimal digits Boost uses for `float`. -/
def lexicalCastFloat : CFloat → String
  | .nan neg => if neg then "-nan" else "nan"
  | .inf neg => if neg then "-inf" else "inf"
  | .fin neg mant exp =>
    (if neg then "-" else "") ++
      (if mant = 0 then "0"
       else formatG9 (if 0 ≤ exp then mant * 2 ^ exp.toNat else mant)
              (if 0 ≤ exp then 1 else 2 ^ (-exp).toNat))

/-- Model of `boost::lexical_cast<std::string>(int)`: the decimal numeral, with a leading
`-` for a negative value. -/
def lexicalCastInt (v : Int) : String :=
  match v with
  | Int.ofNat n => Nat.repr n
  | Int.negSucc n => "-" ++ Nat.repr (n + 1)

/-! ## The directive tree -/

/-- The instantiations of `template<int Code> class UnaryOperator` that the `UNOP` table
defines (lines 174-176). -/
inductive UnaryCode where
  | Positive | Negative | Not
  deriving DecidableEq

namespace UnaryCode

/-- The template argument `Code`. -/
def code : UnaryCode → Int
  | Positive => 5
  | Negative => 6
  | Not => 7

/-- The static member `dql_symbol`. -/
def dql_symbol : UnaryCode → String
  | Positive => "+"
  | Negative => "-"
  | Not => "!"

/-- The static member `sql_symbol`. -/
def sql_symbol : UnaryCode → String
  | Positive => "+"
  | Negative => "-"
  | Not => "not"

end UnaryCode

/-- The instantiations of `template<int Code> class BinaryOperator` that the `BINOP` table
defines (lines 210-223). -/
inductive BinaryCode where
  | Multiply | Divide | Plus | Subtract
  | Equal | NotEqual | LessThan | LessThanEqual | GreaterThan | GreaterThanEqual
  | And | Or
  deriving DecidableEq

namespace BinaryCode

/-- The template argument `Code`. -/
def code : BinaryCode → Int
  | Multiply => 10
  | Divide => 11
  | Plus => 12
  | Subtract => 13
  | Equal => 18
  | NotEqual => 19
  | LessThan => 20
  | LessThanEqual => 21
  | GreaterThan => 22
  | GreaterThanEqual => 23
  | And => 30
  | Or => 31

/-- The static member `dql_symbol`. -/
def dql_symbol : BinaryCode → String
  | Multiply => "*"
  | Divide => "/"
  | Plus => "+"
  | Subtract => "-"
  | Equal => "=="
  | NotEqual => "!="
  | LessThan => "<"
  | LessThanEqual => "<="
  | GreaterThan => ">"
  | GreaterThanEqual => ">="
  | And => " and "
  | Or => " or "

/-- The static member `sql_symbol`. -/
def sql_symbol : BinaryCode → String
  | Multiply => "*"
  | Divide => "/"
  | Plus => "+"
  | Subtract => "-"
  | Equal => "=="
  | NotEqual => "!="
  | LessThan => "<"
  | LessThanEqual => "<="
  | GreaterThan => ">"
  | GreaterThanEqual => ">="
  | And => " AND "
  | Or => " OR "

end BinaryCode

/-- A node of the directive tree, that is an object of one of the directive classes of the
header together with the values of its members: `Group expr` is the `Group` object whose
member `expr_` points to `expr`, `Order expr dir` the `Order` object with members `expr_` and
`dir_`, and so on.  There is one constructor for each directive class that is not a mere
base (`Directive`, `Value`, `Constant<void>` and `Clause` are bases, and a `Dataquery` is not
used as a node here).  `Constant<Type>` is covered for the integer types and for
`std::string`.  A node owns its children, so a node is a finite tree.

The C++ expressions with two or more arguments, `BinaryOperator<Code>(left, right)`,
`Order(expr, dir)` and `Call(name, args...)`, always build the node of the same name.  The
expressions with one argument, `Group(expr)`, `UnaryOperator<Code>(expr)`, `Where(expr)`,
`By(expr)`, `Having(expr)`, `Limit(expr)`, `Offset(expr)` and `Order(expr)`, do so only when
`expr` is of another class: they are the functions `constructGroup` and following. -/
inductive Directive where
  | Column (name : String)
  | ConstantInt (value : Int)
  | ConstantString (value : String)
  | Call (name : String) (args : List Directive)
  | Group (expr : Directive)
  | UnaryOperator (code : UnaryCode) (expr : Directive)
  | BinaryOperator (code : BinaryCode) (left right : Directive)
  | Distinct
  | All
  | Where (expr : Directive)
  | By (expr : Directive)
  | Having (expr : Directive)
  | Order (expr : Directive) (dir : CFloat)
  | Limit (expr : Directive)
  | Offset (expr : Directive)

/-- The accumulation `boost::algorithm::join(args, sep)`: the strings of `args` with `sep`
between consecutive ones. -/
def join : List String → String → String
  | [], _ => ""
  | [x], _ => x
  | x :: y :: rest, sep => x ++ sep ++ join (y :: rest) sep

namespace Directive

mutual
/-- The virtual member `dql()`: the notation form of a node. -/
def dql : Directive → String
  | Column name => name
  | ConstantInt value => lexicalCastInt value
  | ConstantString value => value
  | Call name args => name ++ "(" ++ join (dqlArgs args) ", " ++ ")"
  | Group expr => "(" ++ dql expr ++ ")"
  | UnaryOperator code expr => code.dql_symbol ++ dql expr
  | BinaryOperator code left right => dql left ++ code.dql_symbol ++ dql right
  | Distinct => ""
  | All => ""
  | Where expr => "where(" ++ dql expr ++ ")"
  | By expr => "by(" ++ dql expr ++ ")"
  | Having expr => "having(" ++ dql expr ++ ")"
  | Order expr dir =>
    let s := "order(" ++ dql expr
    let s := if dir.neOne then s ++ ("," ++ lexicalCastFloat dir) else s
    s ++ ")"
  | Limit expr => "limit(" ++ dql expr ++ ")"
  | Offset expr => "offset(" ++ dql expr ++ ")"
/-- The loop of `Call::dql` that collects the notation forms of the arguments. -/
def dqlArgs : List Directive → List String
  | [] => []
  | arg :: rest => dql arg :: dqlArgs rest
end

mutual
/-- The virtual member `sql()`: the relational form of a node. -/
def sql : Directive → String
  | Column name => "\"" ++ name ++ "\""
  | ConstantInt value => lexicalCastInt value
  | ConstantString value => value
  | Call name args => name ++ "(" ++ join (sqlArgs args) ", " ++ ")"
  | Group expr => "(" ++ sql expr ++ ")"
  | UnaryOperator code expr => code.sql_symbol ++ sql expr
  | BinaryOperator code left right => sql left ++ code.sql_symbol ++ sql right
  | Distinct => ""
  | All => ""
  | Where expr => sql expr
  | By expr => sql expr
  | Having expr => sql expr
  | Order expr _ => sql expr
  | Limit expr => sql expr
  | Offset expr => sql expr
/-- The loop of `Call::sql` that collects the relational forms of the arguments. -/
def sqlArgs : List Directive → List String
  | [] => []
  | arg :: rest => sql arg :: sqlArgs rest
end

end Directive

/-! ## Constructor calls with one argument

The constructors `template<class Expression> X(const Expression& expr)` of `Group` (line
137), `UnaryOperator` (line 154), `Where`, `By`, `Having`, `Limit`, `Offset` (lines 256-326)
and `Order` with its direction defaulted (line 295) are templates, and a template is never
the copy constructor of its class.  When the argument is itself an object of class `X`, the
implicitly declared copy (or move) constructor is the better match, and the expression `X(e)`
is a copy of `e`: no node is added.  For an argument of any other class the template is
chosen and the argument becomes the child `expr_` of a new node. -/

namespace Directive

/-- The C++ expression `Group(expr)`. -/
def constructGroup (expr : Directive) : Directive :=
  match expr with
  | .Group _ => expr
  | _ => .Group expr

/-- The C++ expression `UnaryOperator<Code>(expr)`, that is `Positive(expr)`,
`Negative(expr)` or `Not(expr)`: a copy of `expr` when `expr` is of that same class. -/
def constructUnaryOperator (code : UnaryCode) (expr : Directive) : Directive :=
  match expr with
  | .UnaryOperator code' _ => if code' = code then expr else .UnaryOperator code expr
  | _ => .UnaryOperator code expr

/-- The C++ expression `Where(expr)`. -/
def constructWhere (expr : Directive) : Directive :=
  match expr with
  | .Where _ => expr
  | _ => .Where expr

/-- The C++ expression `By(expr)`. -/
def constructBy (expr : Directive) : Directive :=
  match expr with
  | .By _ => expr
  | _ => .By expr

/-- The C++ expression `Having(expr)`. -/
def constructHaving (expr : Directive) : Directive :=
  match expr with
  | .Having _ => expr
  | _ => .Having expr

/-- The C++ expression `Order(expr)`, with the direction defaulted to 1. -/
def constructOrder (expr : Directive) : Directive :=
  match expr with
  | .Order _ _ => expr
  | _ => .Order expr CFloat.one

/-- The C++ expression `Limit(expr)`. -/
def constructLimit (expr : Directive) : Directive :=
  match expr with
  | .Limit _ => expr
  | _ => .Limit expr

/-- The C++ expression `Offset(expr)`. -/
def constructOffset (expr : Directive) : Directive :=
  match expr with
  | .Offset _ => expr
  | _ => .Offset expr

end Directive

/-! ## The clause classes as the compiler stores them -/

/-- Object of `class Where : public Clause`: the owned inner expression `expr_`. -/
structure Where where
  expr_ : Directive

/-- Object of `class By : public Clause`. -/
structure By where
  expr_ : Directive

/-- Object of `class Having : public Clause`. -/
structure Having where
  expr_ : Directive

/-- Object of `class Order : public Clause`: the inner expression and the direction `dir_`. -/
structure Order where
  expr_ : Directive
  dir_ : CFloat

/-- Object of `class Limit : public Clause`. -/
structure Limit where
  expr_ : Directive

/-- Object of `class Offset : public Clause`. -/
structure Offset where
  expr_ : Directive

/-- The member `Clause::sql`, which `Where` inherits. -/
def Where.sql (c : Where) : String := c.expr_.sql

/-- The member `Clause::sql`, which `By` inherits. -/
def By.sql (c : By) : String := c.expr_.sql

/-- The member `Clause::sql`, which `Having` inherits. -/
def Having.sql (c : Having) : String := c.expr_.sql

/-- The member `Clause::sql`, which `Order` inherits. -/
def Order.sql (c : Order) : String := c.expr_.sql

/-- The member `Order::direction`. -/
def Order.direction (c : Order) : CFloat := c.dir_

/-- The member `Clause::sql`, which `Limit` inherits. -/
def Limit.sql (c : Limit) : String := c.expr_.sql

/-- The member `Clause::sql`, which `Offset` inherits. -/
def Offset.sql (c : Offset) : String := c.expr_.sql

/-! ## The query compiler -/

/-- The data members of `class Dataquery` (lines 341-353): the append log, the table name,
the `compiled_` flag and the cached buckets. -/
structure Dataquery where
  directives_ : List Directive
  table_ : String
  compiled_ : Bool
  distinct_ : Bool
  values_ : List Directive
  wheres_ : List Where
  bys_ : List By
  havings_ : List Having
  orders_ : List Order
  limit_ : Option Limit
  offset_ : Option Offset

/-- The loop shape `for(i=begin;i!=end;i++){ text += render(*i); if(i!=end-1) text += sep; }`
that `Dataquery::dql` and `Dataquery::sql` run over the log and over the buckets. -/
def appendEach {α : Type} (render : α → String) (sep : String) : String → List α → String
  | text, [] => text
  | text, x :: rest =>
    let text := text ++ render x
    let text := if !rest.isEmpty then text ++ sep else text
    appendEach render sep text rest

/-- The loop of lines 492-498 over `orders_`: the relational form of each order, its
direction keyword, and `", "` after every entry but the last. -/
def appendOrders : String → List Order → String
  | sql, [] => sql
  | sql, order :: rest =>
    let sql := sql ++ order.sql
    let sql :=
      if order.direction.gtZero then sql ++ " ASC"
      else if order.direction.ltZero then sql ++ " DESC"
      else sql
    let sql := if !rest.isEmpty then sql ++ ", " else sql
    appendOrders sql rest

namespace Dataquery

/-- A newly constructed `Dataquery`.  The class declares no constructor (lines 338-354), so
the vector and string members start empty, while the members of scalar type, `compiled_`,
`distinct_`, `limit_` and `offset_`, hold whatever the initialisation of the object leaves in
them (zero for `Dataquery()`, an indeterminate value for `Dataquery q;`): they are the
parameters. -/
def new (compiled distinct : Bool) (limit : Option Limit) (offset : Option Offset) : Dataquery :=
  { directives_ := [], table_ := "", compiled_ := compiled, distinct_ := distinct,
    values_ := [], wheres_ := [], bys_ := [], havings_ := [], orders_ := [],
    limit_ := limit, offset_ := offset }

/-- The variadic member `append(dir, dirs...)` (lines 361-374): each argument is pushed onto
the log and `compiled_` is cleared; with no argument nothing changes. -/
def append (q : Dataquery) : List Directive → Dataquery
  | [] => q
  | dir :: dirs =>
    append { q with directives_ := q.directives_ ++ [dir], compiled_ := false } dirs

/-- The member `from(name)` (lines 378-381). -/
def from_ (q : Dataquery) (name : String) : Dataquery :=
  { q with table_ := name }

/-- The body of the classification loop (lines 396-423): the chain of `dynamic_cast` tests on
one logged directive. -/
def classify (q : Dataquery) (directive : Directive) : Dataquery :=
  match directive with
  | .Distinct => { q with distinct_ := true }
  | .All => { q with distinct_ := false }
  | .Where expr => { q with wheres_ := q.wheres_ ++ [⟨expr⟩] }
  | .By expr => { q with bys_ := q.bys_ ++ [⟨expr⟩], values_ := q.values_ ++ [directive] }
  | .Having expr => { q with havings_ := q.havings_ ++ [⟨expr⟩] }
  | .Order expr dir => { q with orders_ := q.orders_ ++ [⟨expr, dir⟩] }
  | .Limit expr => { q with limit_ := some ⟨expr⟩ }
  | .Offset expr => { q with offset_ := some ⟨expr⟩ }
  | _ => { q with values_ := q.values_ ++ [directive] }

/-- The member `compile()` (lines 383-429): when `compiled_` is false the buckets are reset,
the log is classified from its first entry to its last, and `compiled_` is set. -/
def compile (q : Dataquery) : Dataquery :=
  if !q.compiled_ then
    let q := { q with
      distinct_ := false, values_ := [], wheres_ := [], bys_ := [], havings_ := [],
      orders_ := [], limit_ := none, offset_ := none }
    let q := q.directives_.foldl classify q
    { q with compiled_ := true }
  else q

/-- The member `dql()` (lines 431-442): the rendered text and the object after the call. -/
def dql (q : Dataquery) : String × Dataquery :=
  let q := q.compile
  let dql := q.table_ ++ "["
  let dql := appendEach Directive.dql "," dql q.directives_
  let dql := dql ++ "]"
  (dql, q)

/-- Lines 446-448 of `sql()`: `SELECT` and the `DISTINCT` keyword. -/
def sqlSelect (q : Dataquery) : String :=
  let sql := "SELECT"
  if q.distinct_ then sql ++ " DISTINCT" else sql

/-- Lines 450-458 of `sql()`: the select list. -/
def sqlValues (q : Dataquery) (sql : String) : String :=
  if q.values_.length = 0 then sql ++ " *"
  else appendEach Directive.sql ", " (sql ++ " ") q.values_

/-- Line 460 of `sql()`: the `FROM` clause. -/
def sqlFrom (q : Dataquery) (sql : String) : String :=
  sql ++ (" FROM \"" ++ q.table_ ++ "\"")

/-- Lines 462-470 of `sql()`: the `WHERE` clause. -/
def sqlWhere (q : Dataquery) (sql : String) : String :=
  if q.wheres_.length > 0 then
    let sql := sql ++ " WHERE "
    let sql := if q.wheres_.length > 1 then sql ++ "(" else sql
    let sql := appendEach Where.sql ") AND (" sql q.wheres_
    if q.wheres_.length > 1 then sql ++ ")" else sql
  else sql

/-- Lines 472-478 of `sql()`: the `GROUP BY` clause. -/
def sqlGroupBy (q : Dataquery) (sql : String) : String :=
  if q.bys_.length > 0 then appendEach By.sql ", " (sql ++ " GROUP BY ") q.bys_
  else sql

/-- Lines 480-488 of `sql()`: the `HAVING` clause. -/
def sqlHaving (q : Dataquery) (sql : String) : String :=
  if q.havings_.length > 0 then
    let sql := sql ++ " HAVING "
    let sql := if q.havings_.length > 1 then sql ++ "(" else sql
    let sql := appendEach Having.sql ") AND (" sql q.havings_
    if q.havings_.length > 1 then sql ++ ")" else sql
  else sql

/-- Lines 490-499 of `sql()`: the `ORDER BY` clause. -/
def sqlOrderBy (q : Dataquery) (sql : String) : String :=
  if q.orders_.length > 0 then appendOrders (sql ++ " ORDER BY ") q.orders_
  else sql

/-- Lines 501-503 of `sql()`: the `LIMIT` clause. -/
def sqlLimit (q : Dataquery) (sql : String) : String :=
  match q.limit_ with
  | some limit => sql ++ (" LIMIT " ++ limit.sql)
  | none => sql

/-- Lines 505-513 of `sql()`: the `OFFSET` clause, preceded by the largest 64-bit signed
integer as `LIMIT` when no limit is set. -/
def sqlOffset (q : Dataquery) (sql : String) : String :=
  match q.offset_ with
  | some offset =>
    let sql := if q.limit_.isNone then sql ++ " LIMIT 9223372036854775807" else sql
    sql ++ (" OFFSET " ++ offset.sql)
  | none => sql

/-- The member `sql()` (lines 444-516): the rendered text and the object after the call. -/
def sql (q : Dataquery) : String × Dataquery :=
  let q := q.compile
  let sql := q.sqlSelect
  let sql := q.sqlValues sql
  let sql := q.sqlFrom sql
  let sql := q.sqlWhere sql
  let sql := q.sqlGroupBy sql
  let sql := q.sqlHaving sql
  let sql := q.sqlOrderBy sql
  let sql := q.sqlLimit sql
  let sql := q.sqlOffset sql
  (sql, q)

end Dataquery

/-! ## Reading the append log -/

namespace Directive

/-- The test `dynamic_cast<const Where*>(directive)` of line 402. -/
def asWhere : Directive → Option Stencila.Where
  | .Where expr => some ⟨expr⟩
  | _ => none

/-- The test `dynamic_cast<const By*>(directive)` of line 405. -/
def asBy : Directive → Option Stencila.By
  | .By expr => some ⟨expr⟩
  | _ => none

/-- The test `dynamic_cast<const Having*>(directive)` of line 409. -/
def asHaving : Directive → Option Stencila.Having
  | .Having expr => some ⟨expr⟩
  | _ => none

/-- The test `dynamic_cast<const Order*>(directive)` of line 412. -/
def asOrder : Directive → Option Stencila.Order
  | .Order expr dir => some ⟨expr, dir⟩
  | _ => none

/-- The test `dynamic_cast<const Limit*>(directive)` of line 415. -/
def asLimit : Directive → Option Stencila.Limit
  | .Limit expr => some ⟨expr⟩
  | _ => none

/-- The test `dynamic_cast<const Offset*>(directive)` of line 418. -/
def asOffset : Directive → Option Stencila.Offset
  | .Offset expr => some ⟨expr⟩
  | _ => none

/-- Whether the directive is a `Limit` (the test of line 415 succeeds). -/
def isLimit (d : Directive) : Bool := d.asLimit.isSome

/-- Whether the directive is an `Offset` (the test of line 418 succeeds). -/
def isOffset (d : Directive) : Bool := d.asOffset.isSome

/-- The tests of lines 396 and 399: `some true` for a `Distinct` marker, `some false` for an
`All` marker, `none` for every other directive. -/
def asMarker : Directive → Option Bool
  | .Distinct => some true
  | .All => some false
  | _ => none

/-- A bare directive: one that is neither a marker nor a clause, so that the classification
loop reaches its final `else` (line 422). -/
def isBare : Directive → Bool
  | .Column _ | .ConstantInt _ | .ConstantString _ | .Call _ _ | .Group _
  | .UnaryOperator _ _ | .BinaryOperator _ _ _ => true
  | _ => false

/-- A directive that the classification loop pushes onto `values_`: a `By` (line 407) or a
bare directive (line 422). -/
def isValue : Directive → Bool
  | .By _ => true
  | d => d.isBare

mutual
/-- Whether a tree is built, at every depth, only from integer and string constants, `Group`,
`Call`, `Positive`, `Negative` and the arithmetic and comparison binary operators, and from
the markers `Distinct` and `All` too when `markers` is set: it holds no `Column`, no `Not`,
no `And`, no `Or` and no clause wrapper. -/
def builtFromCommonKinds (markers : Bool) : Directive → Bool
  | .Column _ => false
  | .ConstantInt _ => true
  | .ConstantString _ => true
  | .Call _ args => allBuiltFromCommonKinds markers args
  | .Group expr => builtFromCommonKinds markers expr
  | .UnaryOperator .Not _ => false
  | .UnaryOperator _ expr => builtFromCommonKinds markers expr
  | .BinaryOperator .And _ _ => false
  | .BinaryOperator .Or _ _ => false
  | .BinaryOperator _ left right =>
    builtFromCommonKinds markers left && builtFromCommonKinds markers right
  | .Distinct => markers
  | .All => markers
  | .Where _ => false
  | .By _ => false
  | .Having _ => false
  | .Order _ _ => false
  | .Limit _ => false
  | .Offset _ => false
/-- The same test on every argument of a `Call`. -/
def allBuiltFromCommonKinds (markers : Bool) : List Directive → Bool
  | [] => true
  | arg :: rest => builtFromCommonKinds markers arg && allBuiltFromCommonKinds markers rest
end

end Directive

namespace Dataquery

/-- The cache invariant of the compiler: when `compiled_` is set, the object is what
`compile()` computes from its log, i.e. the buckets are the classification of the log.
Every object whose `compiled_` flag is clear satisfies it, `append` establishes it and
`from`, `compile`, `dql` and `sql` preserve it. -/
def Consistent (q : Dataquery) : Prop :=
  q.compiled_ = true → ({ q with compiled_ := false } : Dataquery).compile = q

/-- The part of the cache invariant that concerns the vector members: when `compiled_` is
set they hold the classification of the log.  It holds of a newly constructed object too,
whose vectors and log are empty. -/
def VectorsValid (q : Dataquery) : Prop :=
  q.compiled_ = true →
    q.values_ = q.directives_.filter Directive.isValue
    ∧ q.wheres_ = q.directives_.filterMap Directive.asWhere
    ∧ q.bys_ = q.directives_.filterMap Directive.asBy
    ∧ q.havings_ = q.directives_.filterMap Directive.asHaving
    ∧ q.orders_ = q.directives_.filterMap Directive.asOrder

/-- The objects a program can hold: a newly constructed compiler whose `compiled_` member
started with the value `compiled`, after any sequence of calls of the public members. -/
inductive Reachable (compiled : Bool) : Dataquery → Prop where
  | new (distinct : Bool) (limit : Option Limit) (offset : Option Offset) :
      Reachable compiled (Dataquery.new compiled distinct limit offset)
  | from_ {q : Dataquery} (name : String) :
      Reachable compiled q → Reachable compiled (q.from_ name)
  | append {q : Dataquery} (dirs : List Directive) :
      Reachable compiled q → Reachable compiled (q.append dirs)
  | compile {q : Dataquery} : Reachable compiled q → Reachable compiled q.compile
  | dql {q : Dataquery} : Reachable compiled q → Reachable compiled q.dql.2
  | sql {q : Dataquery} : Reachable compiled q → Reachable compiled q.sql.2

end Dataquery

/-! ## Lemmas: the classification loop -/

theorem getLast?_cons_or {α : Type} (a : α) (l : List α) :
    (a :: l).getLast? = l.getLast?.or (some a) := by
  cases h : l.getLast? <;> simp [List.getLast?_cons, h]

theorem or_some_or {α : Type} (x y : Option α) (a : α) : (x.or (some a)).or y = x.or (some a) := by
  cases x <;> rfl

theorem or_some_getD {α : Type} (x : Option α) (a b : α) : (x.or (some a)).getD b = x.getD a := by
  cases x <;> rfl

namespace Dataquery

theorem foldl_classify_directives (log : List Directive) (q : Dataquery) :
    (log.foldl classify q).directives_ = q.directives_ := by
  induction log generalizing q with
  | nil => rfl
  | cons d rest ih => rw [List.foldl_cons, ih]; cases d <;> rfl

theorem foldl_classify_table (log : List Directive) (q : Dataquery) :
    (log.foldl classify q).table_ = q.table_ := by
  induction log generalizing q with
  | nil => rfl
  | cons d rest ih => rw [List.foldl_cons, ih]; cases d <;> rfl

theorem foldl_classify_values (log : List Directive) (q : Dataquery) :
    (log.foldl classify q).values_ = q.values_ ++ log.filter Directive.isValue := by
  induction log generalizing q with
  | nil => simp
  | cons d rest ih =>
    rw [List.foldl_cons, ih]
    cases d <;> simp [classify, Directive.isValue, Directive.isBare]

theorem foldl_classify_wheres (log : List Directive) (q : Dataquery) :
    (log.foldl classify q).wheres_ = q.wheres_ ++ log.filterMap Directive.asWhere := by
  induction log generalizing q with
  | nil => simp
  | cons d rest ih =>
    rw [List.foldl_cons, ih]
    cases d <;> simp [classify, Directive.asWhere]

theorem foldl_classify_bys (log : List Directive) (q : Dataquery) :
    (log.foldl classify q).bys_ = q.bys_ ++ log.filterMap Directive.asBy := by
  induction log generalizing q with
  | nil => simp
  | cons d rest ih =>
    rw [List.foldl_cons, ih]
    cases d <;> simp [classify, Directive.asBy]

theorem foldl_classify_havings (log : List Directive) (q : Dataquery) :
    (log.foldl classify q).havings_ = q.havings_ ++ log.filterMap Directive.asHaving := by
  induction log generalizing q with
  | nil => simp
  | cons d rest ih =>
    rw [List.foldl_cons, ih]
    cases d <;> simp [classify, Directive.asHaving]

theorem foldl_classify_orders (log : List Directive) (q : Dataquery) :
    (log.foldl classify q).orders_ = q.orders_ ++ log.filterMap Directive.asOrder := by
  induction log generalizing q with
  | nil => simp
  | cons d rest ih =>
    rw [List.foldl_cons, ih]
    cases d <;> simp [classify, Directive.asOrder]

theorem foldl_classify_limit (log : List Directive) (q : Dataquery) :
    (log.foldl classify q).limit_ = ((log.filterMap Directive.asLimit).getLast?).or q.limit_ := by
  induction log generalizing q with
  | nil => rfl
  | cons d rest ih =>
    rw [List.foldl_cons, ih]
    cases d <;>
      simp only [classify, Directive.asLimit, List.filterMap_cons, getLast?_cons_or,
        or_some_or]

theorem foldl_classify_offset (log : List Directive) (q : Dataquery) :
    (log.foldl classify q).offset_
      = ((log.filterMap Directive.asOffset).getLast?).or q.offset_ := by
  induction log generalizing q with
  | nil => rfl
  | cons d rest ih =>
    rw [List.foldl_cons, ih]
    cases d <;>
      simp only [classify, Directive.asOffset, List.filterMap_cons, getLast?_cons_or,
        or_some_or]

theorem foldl_classify_distinct (log : List Directive) (q : Dataquery) :
    (log.foldl classify q).distinct_
      = ((log.filterMap Directive.asMarker).getLast?).getD q.distinct_ := by
  induction log generalizing q with
  | nil => rfl
  | cons d rest ih =>
    rw [List.foldl_cons, ih]
    cases d <;>
      simp only [classify, Directive.asMarker, List.filterMap_cons, getLast?_cons_or,
        or_some_getD]

end Dataquery

/-! ## Lemmas: the rendering loops -/

theorem intercalate_go_cons (sep acc y : String) (rest : List String) :
    String.intercalate.go acc sep (y :: rest) = acc ++ sep ++ String.intercalate.go y sep rest := by
  induction rest generalizing acc y with
  | nil => rfl
  | cons z rest ih =>
    rw [String.intercalate.go, ih, ih y z]
    simp only [String.append_assoc]

theorem intercalate_nil (sep : String) : sep.intercalate [] = "" := rfl

theorem intercalate_singleton (sep x : String) : sep.intercalate [x] = x := rfl

theorem intercalate_cons_cons (sep x y : String) (rest : List String) :
    sep.intercalate (x :: y :: rest) = x ++ sep ++ sep.intercalate (y :: rest) := by
  show String.intercalate.go x sep (y :: rest) = x ++ sep ++ String.intercalate.go y sep rest
  exact intercalate_go_cons sep x y rest

theorem join_eq_intercalate (xs : List String) (sep : String) : join xs sep = sep.intercalate xs := by
  induction xs with
  | nil => rfl
  | cons x rest ih =>
    cases rest with
    | nil => rfl
    | cons y rest => rw [join, ih, intercalate_cons_cons]

theorem appendEach_eq {α : Type} (render : α → String) (sep text : String) (xs : List α) :
    appendEach render sep text xs = text ++ sep.intercalate (xs.map render) := by
  induction xs generalizing text with
  | nil => simp [appendEach, intercalate_nil]
  | cons x rest ih =>
    cases rest with
    | nil => simp [appendEach, intercalate_singleton]
    | cons y rest =>
      rw [appendEach, ih]
      simp [intercalate_cons_cons, String.append_assoc]

theorem appendOrders_eq (text : String) (orders : List Order) :
    appendOrders text orders
      = text ++ ", ".intercalate (orders.map fun o =>
          o.sql ++ (if o.direction.gtZero then " ASC"
                    else if o.direction.ltZero then " DESC" else "")) := by
  induction orders generalizing text with
  | nil => simp [appendOrders, intercalate_nil]
  | cons x rest ih =>
    cases rest with
    | nil =>
      cases hg : x.direction.gtZero <;> cases hl : x.direction.ltZero <;>
        simp [appendOrders, intercalate_singleton, hg, hl, String.append_assoc]
    | cons y rest =>
      rw [appendOrders, ih]
      cases hg : x.direction.gtZero <;> cases hl : x.direction.ltZero <;>
        simp [intercalate_cons_cons, hg, hl, String.append_assoc]

/-! ## Lemmas: the blocks of `sql()` only append -/

namespace Dataquery

theorem sqlValues_append (q : Dataquery) (sql : String) :
    q.sqlValues sql = sql ++ q.sqlValues "" := by
  unfold sqlValues
  by_cases h0 : q.values_.length = 0 <;> simp [h0, appendEach_eq, String.append_assoc]

theorem sqlFrom_append (q : Dataquery) (sql : String) : q.sqlFrom sql = sql ++ q.sqlFrom "" := by
  simp [sqlFrom]

theorem sqlWhere_append (q : Dataquery) (sql : String) : q.sqlWhere sql = sql ++ q.sqlWhere "" := by
  unfold sqlWhere
  by_cases h0 : q.wheres_.length > 0 <;> by_cases h1 : q.wheres_.length > 1 <;>
    simp [h0, h1, appendEach_eq, String.append_assoc]

theorem sqlGroupBy_append (q : Dataquery) (sql : String) :
    q.sqlGroupBy sql = sql ++ q.sqlGroupBy "" := by
  unfold sqlGroupBy
  by_cases h0 : q.bys_.length > 0 <;> simp [h0, appendEach_eq, String.append_assoc]

theorem sqlHaving_append (q : Dataquery) (sql : String) :
    q.sqlHaving sql = sql ++ q.sqlHaving "" := by
  unfold sqlHaving
  by_cases h0 : q.havings_.length > 0 <;> by_cases h1 : q.havings_.length > 1 <;>
    simp [h0, h1, appendEach_eq, String.append_assoc]

theorem sqlOrderBy_append (q : Dataquery) (sql : String) :
    q.sqlOrderBy sql = sql ++ q.sqlOrderBy "" := by
  unfold sqlOrderBy
  by_cases h0 : q.orders_.length > 0 <;> simp [h0, appendOrders_eq, String.append_assoc]

theorem sqlLimit_append (q : Dataquery) (sql : String) : q.sqlLimit sql = sql ++ q.sqlLimit "" := by
  unfold sqlLimit
  cases q.limit_ <;> simp

theorem sqlOffset_append (q : Dataquery) (sql : String) :
    q.sqlOffset sql = sql ++ q.sqlOffset "" := by
  unfold sqlOffset
  cases q.offset_ <;> cases q.limit_ <;> simp [String.append_assoc]

/-- The text of `sql()` is the concatenation of the texts of its blocks. -/
theorem sql_eq_blocks (q : Dataquery) :
    q.sql.1 = q.compile.sqlSelect ++ q.compile.sqlValues "" ++ q.compile.sqlFrom ""
      ++ q.compile.sqlWhere ""
      ++ q.compile.sqlGroupBy "" ++ q.compile.sqlHaving "" ++ q.compile.sqlOrderBy ""
      ++ q.compile.sqlLimit "" ++ q.compile.sqlOffset "" := by
  show q.compile.sqlOffset (q.compile.sqlLimit (q.compile.sqlOrderBy (q.compile.sqlHaving
    (q.compile.sqlGroupBy (q.compile.sqlWhere (q.compile.sqlFrom
      (q.compile.sqlValues q.compile.sqlSelect))))))) = _
  rw [sqlOffset_append, sqlLimit_append, sqlOrderBy_append, sqlHaving_append, sqlGroupBy_append,
    sqlWhere_append, sqlFrom_append, sqlValues_append]

/-! ## Lemmas: what `compile()` leaves in the buckets -/

theorem compile_of_consistent (q : Dataquery) (h : q.Consistent) :
    q.compile = ({ q with compiled_ := false } : Dataquery).compile := by
  cases hc : q.compiled_ with
  | false =>
    have : ({ q with compiled_ := false } : Dataquery) = q := by
      cases q; simp only at hc; subst hc; rfl
    rw [this]
  | true =>
    rw [h hc]
    simp [compile, hc]

theorem compile_directives (q : Dataquery) : q.compile.directives_ = q.directives_ := by
  unfold compile
  by_cases hc : q.compiled_ <;> simp [hc, foldl_classify_directives]

theorem compile_table (q : Dataquery) : q.compile.table_ = q.table_ := by
  unfold compile
  by_cases hc : q.compiled_ <;> simp [hc, foldl_classify_table]

theorem compile_compiled (q : Dataquery) : q.compile.compiled_ = true := by
  unfold compile
  cases hc : q.compiled_ <;> simp [hc]

theorem stale_eq (q : Dataquery) (hc : q.compiled_ = false) :
    ({ q with compiled_ := false } : Dataquery) = q := by
  cases q; simp only at hc; subst hc; rfl

theorem compile_eq_self (q : Dataquery) (hc : q.compiled_ = true) : q.compile = q := by
  simp [compile, hc]

theorem recompile_vectors (q : Dataquery) :
    ({ q with compiled_ := false } : Dataquery).compile.VectorsValid := by
  intro _
  simp [compile, foldl_classify_values, foldl_classify_wheres, foldl_classify_bys,
    foldl_classify_havings, foldl_classify_orders, foldl_classify_directives]

theorem compile_vectorsValid (q : Dataquery) (h : q.VectorsValid) : q.compile.VectorsValid := by
  cases hc : q.compiled_ with
  | true => rw [compile_eq_self q hc]; exact h
  | false => rw [← stale_eq q hc]; exact recompile_vectors q

theorem vectorsValid_of_consistent {q : Dataquery} (h : q.Consistent) : q.VectorsValid := by
  intro hc
  have hv := recompile_vectors q
  rw [h hc] at hv
  exact hv hc

theorem compile_values (q : Dataquery) (h : q.VectorsValid) :
    q.compile.values_ = q.directives_.filter Directive.isValue := by
  have := (compile_vectorsValid q h (compile_compiled q)).1
  rwa [compile_directives] at this

theorem compile_wheres (q : Dataquery) (h : q.VectorsValid) :
    q.compile.wheres_ = q.directives_.filterMap Directive.asWhere := by
  have := (compile_vectorsValid q h (compile_compiled q)).2.1
  rwa [compile_directives] at this

theorem compile_bys (q : Dataquery) (h : q.VectorsValid) :
    q.compile.bys_ = q.directives_.filterMap Directive.asBy := by
  have := (compile_vectorsValid q h (compile_compiled q)).2.2.1
  rwa [compile_directives] at this

theorem compile_havings (q : Dataquery) (h : q.VectorsValid) :
    q.compile.havings_ = q.directives_.filterMap Directive.asHaving := by
  have := (compile_vectorsValid q h (compile_compiled q)).2.2.2.1
  rwa [compile_directives] at this

theorem compile_orders (q : Dataquery) (h : q.VectorsValid) :
    q.compile.orders_ = q.directives_.filterMap Directive.asOrder := by
  have := (compile_vectorsValid q h (compile_compiled q)).2.2.2.2
  rwa [compile_directives] at this

theorem compile_limit (q : Dataquery) (h : q.Consistent) :
    q.compile.limit_ = (q.directives_.filterMap Directive.asLimit).getLast? := by
  rw [compile_of_consistent q h]
  simp only [compile, Bool.not_false, if_true, foldl_classify_limit, Option.or_none]

theorem compile_offset (q : Dataquery) (h : q.Consistent) :
    q.compile.offset_ = (q.directives_.filterMap Directive.asOffset).getLast? := by
  rw [compile_of_consistent q h]
  simp only [compile, Bool.not_false, if_true, foldl_classify_offset, Option.or_none]

theorem compile_distinct (q : Dataquery) (h : q.Consistent) :
    q.compile.distinct_ = ((q.directives_.filterMap Directive.asMarker).getLast?).getD false := by
  rw [compile_of_consistent q h]
  simp only [compile, Bool.not_false, if_true, foldl_classify_distinct]

end Dataquery

/-! ## Lemmas: the argument loops of `Call` -/

theorem Directive.dqlArgs_eq_map (args : List Directive) :
    Directive.dqlArgs args = args.map Directive.dql := by
  induction args with
  | nil => rfl
  | cons a rest ih => rw [Directive.dqlArgs, ih]; rfl

theorem Directive.sqlArgs_eq_map (args : List Directive) :
    Directive.sqlArgs args = args.map Directive.sql := by
  induction args with
  | nil => rfl
  | cons a rest ih => rw [Directive.sqlArgs, ih]; rfl

/-! ## Lemmas: the constructor call `Group(expr)` -/

/-- The expression `Group(e)` adds the pair of parentheses when `e` is of any class other
than `Group`, and is a copy of `e` when `e` is a `Group`. -/
theorem Directive.constructGroup_forms (e : Directive) :
    ((∀ inner : Directive, e ≠ Directive.Group inner) →
      (Directive.constructGroup e).dql = "(" ++ e.dql ++ ")"
      ∧ (Directive.constructGroup e).sql = "(" ++ e.sql ++ ")")
    ∧ Directive.constructGroup (.Group e) = .Group e := by
  refine ⟨fun h => ?_, rfl⟩
  have hc : Directive.constructGroup e = Directive.Group e := by
    cases e with
    | Group inner => exact absurd rfl (h inner)
    | _ => rfl
  rw [hc]
  exact ⟨rfl, rfl⟩

/-- The expression `Group(Group(Column("x")))` renders `(x)` and `("x")`. -/
theorem Directive.constructGroup_nested :
    (Directive.constructGroup (Directive.constructGroup (.Column "x"))).dql = "(x)"
    ∧ (Directive.constructGroup (Directive.constructGroup (.Column "x"))).sql = "(\"x\")" := by
  decide

/-! ## Lemmas: the cache invariant -/

namespace Dataquery

theorem consistent_of_stale (q : Dataquery) (h : q.compiled_ = false) : q.Consistent := by
  intro hc; rw [h] at hc; cases hc

theorem append_directives (q : Dataquery) (dirs : List Directive) :
    (q.append dirs).directives_ = q.directives_ ++ dirs := by
  induction dirs generalizing q with
  | nil => simp [append]
  | cons d rest ih => rw [append, ih]; simp

theorem append_table (q : Dataquery) (dirs : List Directive) :
    (q.append dirs).table_ = q.table_ := by
  induction dirs generalizing q with
  | nil => rfl
  | cons d rest ih => rw [append, ih]

theorem append_compiled (q : Dataquery) (d : Directive) (dirs : List Directive) :
    (q.append (d :: dirs)).compiled_ = false := by
  induction dirs generalizing q d with
  | nil => rfl
  | cons e rest ih => rw [append]; exact ih _ e

theorem append_consistent (q : Dataquery) (h : q.Consistent) (dirs : List Directive) :
    (q.append dirs).Consistent := by
  cases dirs with
  | nil => exact h
  | cons d rest => exact consistent_of_stale _ (append_compiled q d rest)

theorem classify_from (q : Dataquery) (name : String) (d : Directive) :
    classify (q.from_ name) d = (classify q d).from_ name := by
  cases d <;> rfl

theorem foldl_classify_from (log : List Directive) (q : Dataquery) (name : String) :
    log.foldl classify (q.from_ name) = (log.foldl classify q).from_ name := by
  induction log generalizing q with
  | nil => rfl
  | cons d rest ih => rw [List.foldl_cons, List.foldl_cons, classify_from, ih]

theorem recompile_eq (q : Dataquery) :
    ({ q with compiled_ := false } : Dataquery).compile
      = { (q.directives_.foldl classify
            { directives_ := q.directives_, table_ := q.table_, compiled_ := false,
              distinct_ := false, values_ := [], wheres_ := [], bys_ := [], havings_ := [],
              orders_ := [], limit_ := none, offset_ := none }) with compiled_ := true } :=
  rfl

theorem recompile_from (q : Dataquery) (name : String) :
    ({ q.from_ name with compiled_ := false } : Dataquery).compile
      = (({ q with compiled_ := false } : Dataquery).compile).from_ name := by
  rw [recompile_eq, recompile_eq]
  have := foldl_classify_from q.directives_
    { directives_ := q.directives_, table_ := q.table_, compiled_ := false,
      distinct_ := false, values_ := [], wheres_ := [], bys_ := [], havings_ := [],
      orders_ := [], limit_ := none, offset_ := none } name
  simp only [from_] at this ⊢
  rw [this]

theorem from_consistent (q : Dataquery) (h : q.Consistent) (name : String) :
    (q.from_ name).Consistent := by
  intro hc
  rw [recompile_from, h hc]

theorem recompile_compile (q : Dataquery) :
    ({ q.compile with compiled_ := false } : Dataquery).compile
      = ({ q with compiled_ := false } : Dataquery).compile := by
  rw [recompile_eq, recompile_eq, compile_directives, compile_table]

theorem compile_consistent (q : Dataquery) (h : q.Consistent) : q.compile.Consistent := by
  intro _
  rw [recompile_compile, compile_of_consistent q h]

/-- Every object a program can hold satisfies the cache invariant, unless its `compiled_`
member started set and nothing has been appended to it. -/
theorem Reachable.consistent {compiled : Bool} {q : Dataquery} (hr : Reachable compiled q)
    (hd : compiled = false ∨ q.directives_ ≠ []) : q.Consistent := by
  induction hr with
  | new distinct limit offset =>
    cases hd with
    | inl hc => exact consistent_of_stale _ hc
    | inr hne => exact absurd rfl hne
  | from_ name _ ih => exact from_consistent _ (ih hd) name
  | @append q dirs _ ih =>
    cases dirs with
    | nil => exact ih hd
    | cons d rest => exact consistent_of_stale _ (append_compiled q d rest)
  | @compile q _ ih => exact compile_consistent _ (ih (by rwa [compile_directives] at hd))
  | @dql q _ ih => exact compile_consistent _ (ih (by rwa [show q.dql.2 = q.compile from rfl,
      compile_directives] at hd))
  | @sql q _ ih => exact compile_consistent _ (ih (by rwa [show q.sql.2 = q.compile from rfl,
      compile_directives] at hd))

/-- Every object a program can hold has valid vector members. -/
theorem Reachable.vectorsValid {compiled : Bool} {q : Dataquery} (hr : Reachable compiled q) :
    q.VectorsValid := by
  induction hr with
  | new distinct limit offset => intro _; exact ⟨rfl, rfl, rfl, rfl, rfl⟩
  | from_ name _ ih => exact ih
  | @append q dirs _ ih =>
    cases dirs with
    | nil => exact ih
    | cons d rest => intro hc; rw [append_compiled q d rest] at hc; cases hc
  | compile _ ih => exact compile_vectorsValid _ ih
  | dql _ ih => exact compile_vectorsValid _ ih
  | sql _ ih => exact compile_vectorsValid _ ih

/-- The select list written by lines 450-458, read off the log. -/
theorem sqlValues_text (q : Dataquery) (h : q.VectorsValid) :
    (q.directives_.filter Directive.isValue = [] → q.compile.sqlValues "" = " *")
    ∧ (q.directives_.filter Directive.isValue ≠ [] →
        q.compile.sqlValues "" = " " ++ ", ".intercalate
          ((q.directives_.filter Directive.isValue).map Directive.sql)) := by
  have hv := compile_values q h
  unfold sqlValues
  rw [hv]
  refine ⟨fun hnil => ?_, fun hne => ?_⟩
  · simp [hnil]
  · have hlen : ¬ (q.directives_.filter Directive.isValue).length = 0 := by
      intro h0; exact hne (List.length_eq_zero.mp h0)
    simp only [hlen, if_false, appendEach_eq, String.empty_append]

theorem ne_nil_of_filterMap_ne_nil {α β : Type} (f : α → Option β) (log : List α)
    (h : log.filterMap f ≠ []) : log ≠ [] := by
  intro hnil; rw [hnil] at h; exact h rfl

theorem ne_nil_of_getLast?_filterMap {α β : Type} (f : α → Option β) (log : List α) (b : β)
    (h : (log.filterMap f).getLast? = some b) : log ≠ [] := by
  intro hnil; rw [hnil] at h; cases h

theorem filterMap_asBy_filter_isValue (log : List Directive) :
    (log.filter Directive.isValue).filterMap Directive.asBy = log.filterMap Directive.asBy := by
  induction log with
  | nil => rfl
  | cons d rest ih =>
    cases d <;>
      simp [List.filter_cons, Directive.isValue, Directive.isBare, Directive.asBy, ih]

theorem filter_filter_of_imp {α : Type} (p r : α → Bool) (hpr : ∀ d, p d = true → r d = true)
    (log : List α) : (log.filter r).filter p = log.filter p := by
  induction log with
  | nil => rfl
  | cons d rest ih =>
    by_cases hr : r d = true
    · simp [List.filter_cons, hr, ih]
    · have hp : ¬ p d = true := fun hp => hr (hpr d hp)
      simp [List.filter_cons, hr, hp, ih]

theorem filterMap_filter_of_imp {α β : Type} (f : α → Option β) (r : α → Bool)
    (hfr : ∀ d, r d = false → f d = none) (log : List α) :
    (log.filter r).filterMap f = log.filterMap f := by
  induction log with
  | nil => rfl
  | cons d rest ih =>
    cases hr : r d with
    | true => simp [List.filter_cons, hr, List.filterMap_cons, ih]
    | false => simp [List.filter_cons, hr, List.filterMap_cons, hfr d hr, ih]

/-- The text of `sql()` is a function of the table and of the classified log. -/
theorem sql_eq_of_classified_log_eq (q₁ q₂ : Dataquery)
    (h₁ : q₁.Consistent) (h₂ : q₂.Consistent)
    (htable : q₁.table_ = q₂.table_)
    (hvalues : q₁.directives_.filter Directive.isValue
      = q₂.directives_.filter Directive.isValue)
    (hwheres : q₁.directives_.filterMap Directive.asWhere
      = q₂.directives_.filterMap Directive.asWhere)
    (hhavings : q₁.directives_.filterMap Directive.asHaving
      = q₂.directives_.filterMap Directive.asHaving)
    (horders : q₁.directives_.filterMap Directive.asOrder
      = q₂.directives_.filterMap Directive.asOrder)
    (hlimit : (q₁.directives_.filterMap Directive.asLimit).getLast?
      = (q₂.directives_.filterMap Directive.asLimit).getLast?)
    (hoffset : (q₁.directives_.filterMap Directive.asOffset).getLast?
      = (q₂.directives_.filterMap Directive.asOffset).getLast?)
    (hmarker : (q₁.directives_.filterMap Directive.asMarker).getLast?
      = (q₂.directives_.filterMap Directive.asMarker).getLast?) :
    q₁.sql.1 = q₂.sql.1 := by
  have hbys : q₁.compile.bys_ = q₂.compile.bys_ := by
    rw [compile_bys q₁ (vectorsValid_of_consistent h₁), compile_bys q₂ (vectorsValid_of_consistent h₂),
      ← filterMap_asBy_filter_isValue q₁.directives_,
      ← filterMap_asBy_filter_isValue q₂.directives_, hvalues]
  have hv : q₁.compile.values_ = q₂.compile.values_ := by
    rw [compile_values q₁ (vectorsValid_of_consistent h₁), compile_values q₂ (vectorsValid_of_consistent h₂), hvalues]
  have hw : q₁.compile.wheres_ = q₂.compile.wheres_ := by
    rw [compile_wheres q₁ (vectorsValid_of_consistent h₁), compile_wheres q₂ (vectorsValid_of_consistent h₂), hwheres]
  have hh : q₁.compile.havings_ = q₂.compile.havings_ := by
    rw [compile_havings q₁ (vectorsValid_of_consistent h₁), compile_havings q₂ (vectorsValid_of_consistent h₂), hhavings]
  have ho : q₁.compile.orders_ = q₂.compile.orders_ := by
    rw [compile_orders q₁ (vectorsValid_of_consistent h₁), compile_orders q₂ (vectorsValid_of_consistent h₂), horders]
  have hl : q₁.compile.limit_ = q₂.compile.limit_ := by
    rw [compile_limit q₁ h₁, compile_limit q₂ h₂, hlimit]
  have hf : q₁.compile.offset_ = q₂.compile.offset_ := by
    rw [compile_offset q₁ h₁, compile_offset q₂ h₂, hoffset]
  have hd : q₁.compile.distinct_ = q₂.compile.distinct_ := by
    rw [compile_distinct q₁ h₁, compile_distinct q₂ h₂, hmarker]
  have ht : q₁.compile.table_ = q₂.compile.table_ := by
    rw [compile_table, compile_table, htable]
  rw [sql_eq_blocks, sql_eq_blocks]
  simp only [sqlSelect, sqlValues, sqlFrom, sqlWhere,
    sqlGroupBy, sqlHaving, sqlOrderBy, sqlLimit,
    sqlOffset, hbys, hv, hw, hh, ho, hl, hf, hd, ht]


theorem compile_from (q : Dataquery) (name : String) :
    (q.from_ name).compile = q.compile.from_ name := by
  cases hc : q.compiled_ with
  | true =>
    rw [compile_eq_self q hc, compile_eq_self (q.from_ name) hc]
  | false =>
    have h1 := recompile_from q name
    rw [stale_eq q hc] at h1
    have h2 : ({ q.from_ name with compiled_ := false } : Dataquery) = q.from_ name :=
      stale_eq (q.from_ name) hc
    rw [h2] at h1
    exact h1

theorem from_from (q : Dataquery) (a b : String) : (q.from_ a).from_ b = q.from_ b := rfl

/-- The clause texts of `sql()` with the table set to `name`: only the `FROM` clause reads
the table. -/
theorem sql_from_text (q : Dataquery) (name : String) :
    (q.from_ name).sql.1
      = q.compile.sqlSelect ++ q.compile.sqlValues "" ++ (" FROM \"" ++ name ++ "\"")
        ++ q.compile.sqlWhere "" ++ q.compile.sqlGroupBy "" ++ q.compile.sqlHaving ""
        ++ q.compile.sqlOrderBy "" ++ q.compile.sqlLimit "" ++ q.compile.sqlOffset "" := by
  rw [sql_eq_blocks, compile_from]
  rfl

theorem dql_from_text (q : Dataquery) (name : String) :
    (q.from_ name).dql.1
      = name ++ "[" ++ ",".intercalate (q.directives_.map Directive.dql) ++ "]" := by
  show appendEach Directive.dql "," ((q.from_ name).compile.table_ ++ "[")
    (q.from_ name).compile.directives_ ++ "]" = _
  rw [appendEach_eq, compile_directives, compile_table]
  rfl

/-- The text the `WHERE` block writes, by the number of entries in `wheres_`. -/
theorem sqlWhere_text (q : Dataquery) :
    (q.wheres_ = [] → q.sqlWhere "" = "")
    ∧ (∀ w : Where, q.wheres_ = [w] → q.sqlWhere "" = " WHERE " ++ w.expr_.sql)
    ∧ (2 ≤ q.wheres_.length →
        q.sqlWhere "" = " WHERE (" ++ ") AND (".intercalate
          (q.wheres_.map fun w => w.expr_.sql) ++ ")") := by
  refine ⟨fun h0 => ?_, fun w h1 => ?_, fun h2 => ?_⟩
  · simp [sqlWhere, h0]
  · simp [sqlWhere, h1, appendEach_eq, intercalate_singleton, Where.sql]
  · have h0 : q.wheres_.length > 0 := by omega
    have h1 : q.wheres_.length > 1 := by omega
    simp only [sqlWhere, h0, h1, if_true, appendEach_eq, String.empty_append,
      String.append_assoc]
    rfl

/-- The text the `HAVING` block writes, by the number of entries in `havings_`. -/
theorem sqlHaving_text (q : Dataquery) :
    (q.havings_ = [] → q.sqlHaving "" = "")
    ∧ (∀ w : Having, q.havings_ = [w] → q.sqlHaving "" = " HAVING " ++ w.expr_.sql)
    ∧ (2 ≤ q.havings_.length →
        q.sqlHaving "" = " HAVING (" ++ ") AND (".intercalate
          (q.havings_.map fun w => w.expr_.sql) ++ ")") := by
  refine ⟨fun h0 => ?_, fun w h1 => ?_, fun h2 => ?_⟩
  · simp [sqlHaving, h0]
  · simp [sqlHaving, h1, appendEach_eq, intercalate_singleton, Having.sql]
  · have h0 : q.havings_.length > 0 := by omega
    have h1 : q.havings_.length > 1 := by omega
    simp only [sqlHaving, h0, h1, if_true, appendEach_eq, String.empty_append,
      String.append_assoc]
    rfl

theorem dql_eq_text (q : Dataquery) :
    q.dql.1 = q.table_ ++ "[" ++ ",".intercalate (q.directives_.map Directive.dql) ++ "]" := by
  show appendEach Directive.dql "," (q.compile.table_ ++ "[") q.compile.directives_ ++ "]" = _
  rw [appendEach_eq, compile_directives, compile_table]

theorem compile_stale_congr (x y : Dataquery) (hx : x.compiled_ = false)
    (hy : y.compiled_ = false) (hd : x.directives_ = y.directives_)
    (ht : x.table_ = y.table_) : x.compile = y.compile := by
  rw [← stale_eq x hx, ← stale_eq y hy, recompile_eq, recompile_eq, hd, ht]

theorem sql_congr_compile (x y : Dataquery) (h : x.compile = y.compile) : x.sql = y.sql := by
  unfold sql
  rw [h]

theorem append_ne_nil_compiled (q : Dataquery) (dirs : List Directive) (h : dirs ≠ []) :
    (q.append dirs).compiled_ = false := by
  cases dirs with
  | nil => exact absurd rfl h
  | cons d rest => exact append_compiled q d rest

end Dataquery

/-! ## The notation output follows the append order (C1) -/

/-- C1. For every compiler object, whatever its table name and its append log (the empty
log included), `dql()` returns the table name, `"["`, the notation forms of the logged
directives in append order joined by `","`, and `"]"`; the kind of a directive plays no
part. -/
theorem dql_is_table_and_log_in_append_order (q : Dataquery) :
    q.dql.1 = q.table_ ++ "[" ++ ",".intercalate (q.directives_.map Directive.dql) ++ "]" := by
  show appendEach Directive.dql "," (q.compile.table_ ++ "[") q.compile.directives_ ++ "]" = _
  rw [appendEach_eq, Dataquery.compile_directives, Dataquery.compile_table]


/-! ## The relational output depends on the buckets only (C2) -/

/-- C2. Two compilers with the same table whose logs agree on the subsequence of `By` and
bare directives, on the subsequences of `Where`, of `Having` and of `Order` directives, on
the last `Limit`, on the last `Offset` and on the last `Distinct`/`All` marker return the
same text from `sql()`, however the directives of different kinds are interleaved.  The
compilers are any objects a program can hold whose `compiled_` member is determined: it
started clear, or something has been appended. -/
theorem sql_depends_on_classified_log_only {c₁ c₂ : Bool} (q₁ q₂ : Dataquery)
    (hr₁ : Dataquery.Reachable c₁ q₁) (hr₂ : Dataquery.Reachable c₂ q₂)
    (hd₁ : c₁ = false ∨ q₁.directives_ ≠ []) (hd₂ : c₂ = false ∨ q₂.directives_ ≠ [])
    (htable : q₁.table_ = q₂.table_)
    (hvalues : q₁.directives_.filter Directive.isValue
      = q₂.directives_.filter Directive.isValue)
    (hwheres : q₁.directives_.filterMap Directive.asWhere
      = q₂.directives_.filterMap Directive.asWhere)
    (hhavings : q₁.directives_.filterMap Directive.asHaving
      = q₂.directives_.filterMap Directive.asHaving)
    (horders : q₁.directives_.filterMap Directive.asOrder
      = q₂.directives_.filterMap Directive.asOrder)
    (hlimit : (q₁.directives_.filterMap Directive.asLimit).getLast?
      = (q₂.directives_.filterMap Directive.asLimit).getLast?)
    (hoffset : (q₁.directives_.filterMap Directive.asOffset).getLast?
      = (q₂.directives_.filterMap Directive.asOffset).getLast?)
    (hmarker : (q₁.directives_.filterMap Directive.asMarker).getLast?
      = (q₂.directives_.filterMap Directive.asMarker).getLast?) :
    q₁.sql.1 = q₂.sql.1 :=
  Dataquery.sql_eq_of_classified_log_eq q₁ q₂ (hr₁.consistent hd₁) (hr₂.consistent hd₂) htable
    hvalues hwheres hhavings horders hlimit hoffset hmarker

/-- Witness for C2: on table `"t"`, the logs `[Where a, By x, Limit 3, Distinct]` and
`[Distinct, Limit 3, By x, Where a]` render the same relational text. -/
theorem sql_depends_on_classified_log_only_witness :
    (((Dataquery.new false false none none).from_ "t").append
        [.Where (.Column "a"), .By (.Column "x"), .Limit (.ConstantInt 3), .Distinct]).sql.1
      = (((Dataquery.new true true none none).from_ "t").append
        [.Distinct, .Limit (.ConstantInt 3), .By (.Column "x"), .Where (.Column "a")]).sql.1 :=
  sql_depends_on_classified_log_only _ _
    (.append _ (.from_ _ (.new _ _ _))) (.append _ (.from_ _ (.new _ _ _)))
    (Or.inl rfl) (Or.inr (List.cons_ne_nil _ _))
    rfl rfl rfl rfl rfl rfl rfl rfl

/-! ## The end-to-end example (C3) -/

/-- C3. A newly constructed compiler, whatever its uninitialised members hold, given the
table `"sales"` and the appends `By(Column("region"))`,
`Where(GreaterThan(Column("amount"), Constant<int>(100)))`, `Order(Column("region"))`,
renders `SELECT "region" FROM "sales" WHERE "amount">100 GROUP BY "region" ORDER BY "region" ASC`. -/
theorem sql_sales_example (compiled distinct : Bool) (limit : Option Limit)
    (offset : Option Offset) :
    (((Dataquery.new compiled distinct limit offset).from_ "sales").append
        [.By (.Column "region"),
         .Where (.BinaryOperator .GreaterThan (.Column "amount") (.ConstantInt 100)),
         .Order (.Column "region") CFloat.one]).sql.1
      = "SELECT \"region\" FROM \"sales\" WHERE \"amount\">100 GROUP BY \"region\" ORDER BY \"region\" ASC" := by
  rfl

/-! ## The `WHERE` clause (C4) -/

/-- C4. Let `w1..wn` be the relational forms of the `Where` directives of the log, in append
order.  For every object a program can hold, the text of `sql()` is the text of the blocks
before the `WHERE` block (lines 446-460), the `WHERE` fragment, and the text of the blocks
after it (lines 472-513), where the fragment is empty when `n = 0`, is `" WHERE " ++ w1`
without parentheses when `n = 1`, and is
`" WHERE (" ++ w1 ++ ") AND (" ++ ... ++ ") AND (" ++ wn ++ ")"` when `n ≥ 2`. -/
theorem sql_where_fragment {compiled : Bool} (q : Dataquery)
    (hr : Dataquery.Reachable compiled q) :
    (q.directives_.filterMap Directive.asWhere = [] →
      q.sql.1 = (q.compile.sqlSelect ++ q.compile.sqlValues "" ++ q.compile.sqlFrom "")
        ++ ""
        ++ (q.compile.sqlGroupBy "" ++ q.compile.sqlHaving "" ++ q.compile.sqlOrderBy ""
            ++ q.compile.sqlLimit "" ++ q.compile.sqlOffset ""))
    ∧ (∀ w : Where, q.directives_.filterMap Directive.asWhere = [w] →
      q.sql.1 = (q.compile.sqlSelect ++ q.compile.sqlValues "" ++ q.compile.sqlFrom "")
        ++ (" WHERE " ++ w.expr_.sql)
        ++ (q.compile.sqlGroupBy "" ++ q.compile.sqlHaving "" ++ q.compile.sqlOrderBy ""
            ++ q.compile.sqlLimit "" ++ q.compile.sqlOffset ""))
    ∧ (2 ≤ (q.directives_.filterMap Directive.asWhere).length →
      q.sql.1 = (q.compile.sqlSelect ++ q.compile.sqlValues "" ++ q.compile.sqlFrom "")
        ++ (" WHERE (" ++ ") AND (".intercalate
              ((q.directives_.filterMap Directive.asWhere).map fun w => w.expr_.sql) ++ ")")
        ++ (q.compile.sqlGroupBy "" ++ q.compile.sqlHaving "" ++ q.compile.sqlOrderBy ""
            ++ q.compile.sqlLimit "" ++ q.compile.sqlOffset "")) := by
  have hw := Dataquery.compile_wheres q hr.vectorsValid
  have hb := Dataquery.sql_eq_blocks q
  refine ⟨fun h0 => ?_, fun w h1 => ?_, fun h2 => ?_⟩
  · rw [hb]
    have : q.compile.sqlWhere "" = "" := by simp [Dataquery.sqlWhere, hw, h0]
    rw [this]; simp only [String.append_assoc, String.append_empty, String.empty_append]
  · rw [hb]
    have : q.compile.sqlWhere "" = " WHERE " ++ w.expr_.sql := by
      simp [Dataquery.sqlWhere, hw, h1, appendEach_eq, intercalate_singleton, Where.sql]
    rw [this]; simp only [String.append_assoc]
  · rw [hb]
    have h0 : (q.directives_.filterMap Directive.asWhere).length > 0 := by omega
    have h1 : (q.directives_.filterMap Directive.asWhere).length > 1 := by omega
    have : q.compile.sqlWhere "" = " WHERE (" ++ ") AND (".intercalate
        ((q.directives_.filterMap Directive.asWhere).map fun w => w.expr_.sql) ++ ")" := by
      simp only [Dataquery.sqlWhere, hw, h0, h1, if_true, appendEach_eq, String.empty_append,
        String.append_assoc]
      rfl
    rw [this]; simp only [String.append_assoc]

/-- Witness for C4: on table `"t"`, the logs `[Column x]` (`n = 0`), `[Where a]` (`n = 1`)
and `[Where a, Column x, Where b]` (`n = 2`). -/
theorem sql_where_fragment_witness :
    (((Dataquery.new true true none none).from_ "t").append [.Column "x"]).sql.1
      = "SELECT \"x\" FROM \"t\""
    ∧ (((Dataquery.new true true none none).from_ "t").append [.Where (.Column "a")]).sql.1
      = "SELECT * FROM \"t\" WHERE \"a\""
    ∧ 2 ≤ ((((Dataquery.new true true none none).from_ "t").append
        [.Where (.Column "a"), .Column "x", .Where (.Column "b")]).directives_.filterMap
          Directive.asWhere).length
    ∧ (((Dataquery.new true true none none).from_ "t").append
        [.Where (.Column "a"), .Column "x", .Where (.Column "b")]).sql.1
      = "SELECT \"x\" FROM \"t\" WHERE (\"a\") AND (\"b\")" :=
  ⟨((sql_where_fragment
      (((Dataquery.new true true none none).from_ "t").append [.Column "x"])
      (.append _ (.from_ _ (.new _ _ _)))).1 rfl).trans (by decide),
   ((sql_where_fragment
      (((Dataquery.new true true none none).from_ "t").append [.Where (.Column "a")])
      (.append _ (.from_ _ (.new _ _ _)))).2.1 ⟨.Column "a"⟩ rfl).trans (by decide),
   by decide,
   ((sql_where_fragment
      (((Dataquery.new true true none none).from_ "t").append
        [.Where (.Column "a"), .Column "x", .Where (.Column "b")])
      (.append _ (.from_ _ (.new _ _ _)))).2.2 (by decide)).trans (by decide)⟩

/-! ## `OFFSET` without `LIMIT` (C5) -/

/-- C5. For every object a program can hold: when the log holds an `Offset` and no `Limit`,
the text of `sql()` is the text of lines 446-499 followed by
`" LIMIT 9223372036854775807 OFFSET "` and the relational form of the `Offset` appended last,
the number being `2^63 - 1`; when the log holds both a `Limit` and an `Offset`, in either
order, it is the text of lines 446-499 followed by `" LIMIT "`, the relational form of the
last `Limit`, `" OFFSET "` and the relational form of the last `Offset`, and no other `LIMIT`
is written. -/
theorem sql_offset_without_limit {compiled : Bool} (q : Dataquery)
    (hr : Dataquery.Reachable compiled q) :
    (∀ o : Offset, (q.directives_.filterMap Directive.asOffset).getLast? = some o →
      q.directives_.filterMap Directive.asLimit = [] →
      q.sql.1 = (q.compile.sqlSelect ++ q.compile.sqlValues "" ++ q.compile.sqlFrom ""
          ++ q.compile.sqlWhere "" ++ q.compile.sqlGroupBy "" ++ q.compile.sqlHaving ""
          ++ q.compile.sqlOrderBy "")
        ++ (" LIMIT 9223372036854775807 OFFSET " ++ o.expr_.sql))
    ∧ (∀ (l : Limit) (o : Offset),
      (q.directives_.filterMap Directive.asLimit).getLast? = some l →
      (q.directives_.filterMap Directive.asOffset).getLast? = some o →
      q.sql.1 = (q.compile.sqlSelect ++ q.compile.sqlValues "" ++ q.compile.sqlFrom ""
          ++ q.compile.sqlWhere "" ++ q.compile.sqlGroupBy "" ++ q.compile.sqlHaving ""
          ++ q.compile.sqlOrderBy "")
        ++ (" LIMIT " ++ l.expr_.sql ++ " OFFSET " ++ o.expr_.sql))
    ∧ "9223372036854775807" = Nat.repr (2 ^ 63 - 1) := by
  have hs := Dataquery.sql_eq_blocks q
  refine ⟨fun o hoff hnolimit => ?_, fun l o hlim hoff => ?_, by decide⟩
  · have h := hr.consistent (Or.inr (Dataquery.ne_nil_of_getLast?_filterMap _ _ _ hoff))
    have hl := Dataquery.compile_limit q h
    have ho := Dataquery.compile_offset q h
    rw [hnolimit] at hl
    rw [hoff] at ho
    have hlt : q.compile.sqlLimit "" = "" := by simp [Dataquery.sqlLimit, hl]
    have hot : q.compile.sqlOffset "" = " LIMIT 9223372036854775807 OFFSET " ++ o.expr_.sql := by
      simp only [Dataquery.sqlOffset, hl, ho, List.getLast?_nil, Option.isNone_none, if_true,
        String.append_assoc]
      rfl
    rw [hs, hlt, hot]; simp only [String.append_assoc, String.empty_append]
  · have h := hr.consistent (Or.inr (Dataquery.ne_nil_of_getLast?_filterMap _ _ _ hoff))
    have hl := Dataquery.compile_limit q h
    have ho := Dataquery.compile_offset q h
    rw [hlim] at hl
    rw [hoff] at ho
    have hlt : q.compile.sqlLimit "" = " LIMIT " ++ l.expr_.sql := by
      simp [Dataquery.sqlLimit, hl, Limit.sql]
    have hot : q.compile.sqlOffset "" = " OFFSET " ++ o.expr_.sql := by
      simp [Dataquery.sqlOffset, hl, ho, Offset.sql]
    rw [hs, hlt, hot]; simp only [String.append_assoc]

/-- Witness for C5: on table `"t"`, the log `[Offset 5, Column x]` holds an `Offset` and no
`Limit`, and the logs `[Offset 5, Limit 10]` and `[Limit 10, Offset 5]` hold both. -/
theorem sql_offset_without_limit_witness :
    ((((Dataquery.new true true none none).from_ "t").append
        [.Offset (.ConstantInt 5), .Column "x"]).directives_.filterMap
          Directive.asOffset).getLast? = some ⟨.ConstantInt 5⟩
    ∧ (((Dataquery.new true true none none).from_ "t").append
        [.Offset (.ConstantInt 5), .Column "x"]).directives_.filterMap Directive.asLimit = []
    ∧ (((Dataquery.new true true none none).from_ "t").append
        [.Offset (.ConstantInt 5), .Column "x"]).sql.1
      = "SELECT \"x\" FROM \"t\" LIMIT 9223372036854775807 OFFSET 5"
    ∧ (((Dataquery.new true true none none).from_ "t").append
        [.Offset (.ConstantInt 5), .Limit (.ConstantInt 10)]).sql.1
      = "SELECT * FROM \"t\" LIMIT 10 OFFSET 5"
    ∧ (((Dataquery.new true true none none).from_ "t").append
        [.Limit (.ConstantInt 10), .Offset (.ConstantInt 5)]).sql.1
      = "SELECT * FROM \"t\" LIMIT 10 OFFSET 5" :=
  ⟨rfl, rfl,
   ((sql_offset_without_limit
      (((Dataquery.new true true none none).from_ "t").append
        [.Offset (.ConstantInt 5), .Column "x"])
      (.append _ (.from_ _ (.new _ _ _)))).1 ⟨.ConstantInt 5⟩ rfl rfl).trans (by decide),
   ((sql_offset_without_limit
      (((Dataquery.new true true none none).from_ "t").append
        [.Offset (.ConstantInt 5), .Limit (.ConstantInt 10)])
      (.append _ (.from_ _ (.new _ _ _)))).2.1 ⟨.ConstantInt 10⟩ ⟨.ConstantInt 5⟩ rfl
        rfl).trans (by decide),
   ((sql_offset_without_limit
      (((Dataquery.new true true none none).from_ "t").append
        [.Limit (.ConstantInt 10), .Offset (.ConstantInt 5)])
      (.append _ (.from_ _ (.new _ _ _)))).2.1 ⟨.ConstantInt 10⟩ ⟨.ConstantInt 5⟩ rfl
        rfl).trans (by decide)⟩

/-! ## The last `Limit` and the last `Offset` win (C6) -/

/-- C6. For every object a program can hold: when the log holds one or more `Limit`
directives, two or more in particular, and `l` is the one appended last, the text of `sql()`
is the text of lines 446-499, then the one clause `" LIMIT "` with the relational form of
`l`, then the `OFFSET` clause of the last `Offset` if there is one; and any compiler with the
same table whose log has the same last `Limit` and is the same once the `Limit` directives
are left out renders the same text, so the earlier `Limit`s contribute nothing.  The same
holds for `Offset`: the text ends with the one clause `" OFFSET "` with the relational form
of the `Offset` appended last, after the `LIMIT` clause of the last `Limit` (or of
`9223372036854775807` when there is none), and the earlier `Offset`s contribute nothing. -/
theorem sql_last_limit_and_last_offset_win {compiled : Bool} (q : Dataquery)
    (hr : Dataquery.Reachable compiled q) :
    (∀ l : Limit, (q.directives_.filterMap Directive.asLimit).getLast? = some l →
      q.sql.1 = (q.compile.sqlSelect ++ q.compile.sqlValues "" ++ q.compile.sqlFrom ""
          ++ q.compile.sqlWhere "" ++ q.compile.sqlGroupBy "" ++ q.compile.sqlHaving ""
          ++ q.compile.sqlOrderBy "")
        ++ (" LIMIT " ++ l.expr_.sql)
        ++ (((q.directives_.filterMap Directive.asOffset).getLast?.map
              fun o => " OFFSET " ++ o.expr_.sql).getD "")
      ∧ ∀ (compiled' : Bool) (q' : Dataquery), Dataquery.Reachable compiled' q' →
          q'.table_ = q.table_ →
          q'.directives_.filter (fun d => !d.isLimit)
            = q.directives_.filter (fun d => !d.isLimit) →
          (q'.directives_.filterMap Directive.asLimit).getLast? = some l →
          q'.sql.1 = q.sql.1)
    ∧ (∀ o : Offset, (q.directives_.filterMap Directive.asOffset).getLast? = some o →
      q.sql.1 = (q.compile.sqlSelect ++ q.compile.sqlValues "" ++ q.compile.sqlFrom ""
          ++ q.compile.sqlWhere "" ++ q.compile.sqlGroupBy "" ++ q.compile.sqlHaving ""
          ++ q.compile.sqlOrderBy "")
        ++ (((q.directives_.filterMap Directive.asLimit).getLast?.map
              fun l => " LIMIT " ++ l.expr_.sql).getD " LIMIT 9223372036854775807")
        ++ (" OFFSET " ++ o.expr_.sql)
      ∧ ∀ (compiled' : Bool) (q' : Dataquery), Dataquery.Reachable compiled' q' →
          q'.table_ = q.table_ →
          q'.directives_.filter (fun d => !d.isOffset)
            = q.directives_.filter (fun d => !d.isOffset) →
          (q'.directives_.filterMap Directive.asOffset).getLast? = some o →
          q'.sql.1 = q.sql.1) := by
  refine ⟨fun l hlim => ⟨?_, fun c' q' hr' ht hrest hlim' => ?_⟩,
    fun o hoff => ⟨?_, fun c' q' hr' ht hrest hoff' => ?_⟩⟩
  · have h := hr.consistent (Or.inr (Dataquery.ne_nil_of_getLast?_filterMap _ _ _ hlim))
    have hl := Dataquery.compile_limit q h
    have ho := Dataquery.compile_offset q h
    rw [hlim] at hl
    have hlt : q.compile.sqlLimit "" = " LIMIT " ++ l.expr_.sql := by
      simp [Dataquery.sqlLimit, hl, Limit.sql]
    rw [Dataquery.sql_eq_blocks, hlt]
    cases hoff : (q.directives_.filterMap Directive.asOffset).getLast? <;>
      · rw [hoff] at ho
        simp [Dataquery.sqlOffset, hl, ho, String.append_assoc, Offset.sql]
  · have h := hr.consistent (Or.inr (Dataquery.ne_nil_of_getLast?_filterMap _ _ _ hlim))
    have h' := hr'.consistent (Or.inr (Dataquery.ne_nil_of_getLast?_filterMap _ _ _ hlim'))
    have key : ∀ {β : Type} (f : Directive → Option β),
        (∀ d : Directive, (!d.isLimit) = false → f d = none) →
        q'.directives_.filterMap f = q.directives_.filterMap f := by
      intro β f hf
      rw [← Dataquery.filterMap_filter_of_imp f _ hf q'.directives_,
        ← Dataquery.filterMap_filter_of_imp f _ hf q.directives_, hrest]
    refine Dataquery.sql_eq_of_classified_log_eq q' q h' h ht ?_ (key _ ?_) (key _ ?_)
      (key _ ?_) (hlim'.trans hlim.symm) (congrArg _ (key _ ?_)) (congrArg _ (key _ ?_))
    · rw [← Dataquery.filter_filter_of_imp Directive.isValue (fun d => !d.isLimit) ?_
          q'.directives_,
        ← Dataquery.filter_filter_of_imp Directive.isValue (fun d => !d.isLimit) ?_
          q.directives_, hrest]
      all_goals
        intro d; cases d <;>
          simp [Directive.isValue, Directive.isBare, Directive.isLimit, Directive.asLimit]
    all_goals
      intro d; cases d <;>
        simp [Directive.isLimit, Directive.asLimit, Directive.asWhere, Directive.asHaving,
          Directive.asOrder, Directive.asOffset, Directive.asMarker]
  · have h := hr.consistent (Or.inr (Dataquery.ne_nil_of_getLast?_filterMap _ _ _ hoff))
    have hl := Dataquery.compile_limit q h
    have ho := Dataquery.compile_offset q h
    rw [hoff] at ho
    rw [Dataquery.sql_eq_blocks]
    cases hlim : (q.directives_.filterMap Directive.asLimit).getLast? <;>
      · rw [hlim] at hl
        simp [Dataquery.sqlOffset, Dataquery.sqlLimit, hl, ho, String.append_assoc,
          Limit.sql, Offset.sql]
  · have h := hr.consistent (Or.inr (Dataquery.ne_nil_of_getLast?_filterMap _ _ _ hoff))
    have h' := hr'.consistent (Or.inr (Dataquery.ne_nil_of_getLast?_filterMap _ _ _ hoff'))
    have key : ∀ {β : Type} (f : Directive → Option β),
        (∀ d : Directive, (!d.isOffset) = false → f d = none) →
        q'.directives_.filterMap f = q.directives_.filterMap f := by
      intro β f hf
      rw [← Dataquery.filterMap_filter_of_imp f _ hf q'.directives_,
        ← Dataquery.filterMap_filter_of_imp f _ hf q.directives_, hrest]
    refine Dataquery.sql_eq_of_classified_log_eq q' q h' h ht ?_ (key _ ?_) (key _ ?_)
      (key _ ?_) (congrArg _ (key _ ?_)) (hoff'.trans hoff.symm) (congrArg _ (key _ ?_))
    · rw [← Dataquery.filter_filter_of_imp Directive.isValue (fun d => !d.isOffset) ?_
          q'.directives_,
        ← Dataquery.filter_filter_of_imp Directive.isValue (fun d => !d.isOffset) ?_
          q.directives_, hrest]
      all_goals
        intro d; cases d <;>
          simp [Directive.isValue, Directive.isBare, Directive.isOffset, Directive.asOffset]
    all_goals
      intro d; cases d <;>
        simp [Directive.isOffset, Directive.asOffset, Directive.asWhere, Directive.asHaving,
          Directive.asOrder, Directive.asLimit, Directive.asMarker]

/-- Witness for C6: on table `"t"`, the log `[Limit 1, Column x, Limit 2]` renders the one
clause `LIMIT 2` and renders what the log `[Column x, Limit 2]` renders; the log
`[Offset 1, Offset 2]` renders the one clause `OFFSET 2` and renders what the log `[Offset 2]`
renders. -/
theorem sql_last_limit_and_last_offset_win_witness :
    ((((Dataquery.new true true none none).from_ "t").append
        [.Limit (.ConstantInt 1), .Column "x", .Limit (.ConstantInt 2)]).directives_.filterMap
          Directive.asLimit).getLast? = some ⟨.ConstantInt 2⟩
    ∧ (((Dataquery.new true true none none).from_ "t").append
        [.Limit (.ConstantInt 1), .Column "x", .Limit (.ConstantInt 2)]).sql.1
      = "SELECT \"x\" FROM \"t\" LIMIT 2"
    ∧ (((Dataquery.new false false none none).from_ "t").append
        [.Column "x", .Limit (.ConstantInt 2)]).sql.1
      = (((Dataquery.new true true none none).from_ "t").append
        [.Limit (.ConstantInt 1), .Column "x", .Limit (.ConstantInt 2)]).sql.1
    ∧ (((Dataquery.new true true none none).from_ "t").append
        [.Offset (.ConstantInt 1), .Offset (.ConstantInt 2)]).sql.1
      = "SELECT * FROM \"t\" LIMIT 9223372036854775807 OFFSET 2"
    ∧ (((Dataquery.new false false none none).from_ "t").append
        [.Offset (.ConstantInt 2)]).sql.1
      = (((Dataquery.new true true none none).from_ "t").append
        [.Offset (.ConstantInt 1), .Offset (.ConstantInt 2)]).sql.1 :=
  ⟨rfl,
   (((sql_last_limit_and_last_offset_win
      (((Dataquery.new true true none none).from_ "t").append
        [.Limit (.ConstantInt 1), .Column "x", .Limit (.ConstantInt 2)])
      (.append _ (.from_ _ (.new _ _ _)))).1 ⟨.ConstantInt 2⟩ rfl).1).trans (by decide),
   ((sql_last_limit_and_last_offset_win
      (((Dataquery.new true true none none).from_ "t").append
        [.Limit (.ConstantInt 1), .Column "x", .Limit (.ConstantInt 2)])
      (.append _ (.from_ _ (.new _ _ _)))).1 ⟨.ConstantInt 2⟩ rfl).2 false
      (((Dataquery.new false false none none).from_ "t").append
        [.Column "x", .Limit (.ConstantInt 2)])
      (.append _ (.from_ _ (.new _ _ _))) rfl rfl rfl,
   (((sql_last_limit_and_last_offset_win
      (((Dataquery.new true true none none).from_ "t").append
        [.Offset (.ConstantInt 1), .Offset (.ConstantInt 2)])
      (.append _ (.from_ _ (.new _ _ _)))).2 ⟨.ConstantInt 2⟩ rfl).1).trans (by decide),
   ((sql_last_limit_and_last_offset_win
      (((Dataquery.new true true none none).from_ "t").append
        [.Offset (.ConstantInt 1), .Offset (.ConstantInt 2)])
      (.append _ (.from_ _ (.new _ _ _)))).2 ⟨.ConstantInt 2⟩ rfl).2 false
      (((Dataquery.new false false none none).from_ "t").append [.Offset (.ConstantInt 2)])
      (.append _ (.from_ _ (.new _ _ _))) rfl rfl rfl⟩

/-! ## The `DISTINCT` keyword (C7) -/

/-- C7, counterexample.  On table `"t"` the log `[Call("DISTINCT", Column("x"))]` holds no
`Distinct`/`All` marker, yet `sql()` returns `SELECT DISTINCT("x") FROM "t"`, which begins
with `SELECT DISTINCT`: beginning with `SELECT DISTINCT` is not equivalent to the last marker
being `Distinct`. -/
theorem sql_begins_select_distinct_counterexample :
    (((Dataquery.new false false none none).from_ "t").append
        [.Call "DISTINCT" [.Column "x"]]).sql.1 = "SELECT DISTINCT(\"x\") FROM \"t\""
    ∧ ¬ ((∃ rest : String,
          (((Dataquery.new false false none none).from_ "t").append
            [.Call "DISTINCT" [.Column "x"]]).sql.1 = "SELECT DISTINCT" ++ rest)
        ↔ ((((Dataquery.new false false none none).from_ "t").append
            [.Call "DISTINCT" [.Column "x"]]).directives_.filterMap
              Directive.asMarker).getLast? = some true) := by
  refine ⟨by decide, fun hiff => ?_⟩
  have hlast := hiff.mp ⟨"(\"x\") FROM \"t\"", by decide⟩
  exact absurd hlast (by decide)

/-- C7, amended.  For every object a program can hold whose `compiled_` member is determined
(it started clear, or something has been appended), the text of `sql()` is
`"SELECT DISTINCT"` when the log holds a `Distinct`/`All` marker and the last one is
`Distinct`, and `"SELECT"` otherwise, followed in both cases by the text of lines 450-513
(the select list and the clauses), which reads no marker. -/
theorem sql_distinct_keyword_follows_last_marker {compiled : Bool} (q : Dataquery)
    (hr : Dataquery.Reachable compiled q) (hd : compiled = false ∨ q.directives_ ≠ []) :
    q.sql.1
      = (if (q.directives_.filterMap Directive.asMarker).getLast? = some true
          then "SELECT DISTINCT" else "SELECT")
        ++ (q.compile.sqlValues "" ++ q.compile.sqlFrom "" ++ q.compile.sqlWhere ""
            ++ q.compile.sqlGroupBy "" ++ q.compile.sqlHaving "" ++ q.compile.sqlOrderBy ""
            ++ q.compile.sqlLimit "" ++ q.compile.sqlOffset "") := by
  have hd := Dataquery.compile_distinct q (hr.consistent hd)
  have hsel : q.compile.sqlSelect
      = (if (q.directives_.filterMap Directive.asMarker).getLast? = some true
          then "SELECT DISTINCT" else "SELECT") := by
    unfold Dataquery.sqlSelect
    rw [hd]
    cases (q.directives_.filterMap Directive.asMarker).getLast? with
    | none => rfl
    | some b => cases b <;> rfl
  rw [Dataquery.sql_eq_blocks, hsel]
  simp only [String.append_assoc]

/-- Witness for C7: on table `"t"`, `Distinct` then `All` renders a `SELECT` without the
keyword, and `All` then `Distinct` renders `SELECT DISTINCT`. -/
theorem sql_distinct_keyword_follows_last_marker_witness :
    (true = false ∨ (((Dataquery.new true true none none).from_ "t").append
        [.Distinct, .All]).directives_ ≠ [])
    ∧ (((Dataquery.new true true none none).from_ "t").append [.Distinct, .All]).sql.1
      = "SELECT * FROM \"t\""
    ∧ (((Dataquery.new false false none none).from_ "t").append [.All, .Distinct]).sql.1
      = "SELECT DISTINCT * FROM \"t\"" :=
  ⟨Or.inr (List.cons_ne_nil _ _),
   (sql_distinct_keyword_follows_last_marker
      (((Dataquery.new true true none none).from_ "t").append [.Distinct, .All])
      (.append _ (.from_ _ (.new _ _ _))) (Or.inr (List.cons_ne_nil _ _))).trans (by decide),
   (sql_distinct_keyword_follows_last_marker
      (((Dataquery.new false false none none).from_ "t").append [.All, .Distinct])
      (.append _ (.from_ _ (.new _ _ _))) (Or.inl rfl)).trans (by decide)⟩

/-! ## `By` directives: the select list and `GROUP BY` (C8) -/

/-- C8. Let `bys` be the `By` directives of the log in append order.  For every object a
program can hold, the text of `sql()` is the text of lines 446-470, the `GROUP BY` fragment
and the text of lines 480-513, the fragment being empty when there is no `By` and otherwise
`" GROUP BY "` followed by the relational forms of the inner expressions of `bys` joined by
`", "`.  The select list is
written from the `By` and bare directives of the log (`" *"` when there is none), the `By`
directives among them are exactly `bys`, each once and in order, and a `By` is written there
as the relational form of its inner expression.  A new compiler given a table `t` and the
one append `By(Column("x"))` renders `SELECT "x" FROM "t" GROUP BY "x"`. -/
theorem sql_by_in_select_list_and_group_by {compiled : Bool} (q : Dataquery)
    (hr : Dataquery.Reachable compiled q) :
    (q.directives_.filterMap Directive.asBy = [] →
      q.sql.1 = (q.compile.sqlSelect ++ q.compile.sqlValues "" ++ q.compile.sqlFrom ""
          ++ q.compile.sqlWhere "")
        ++ ""
        ++ (q.compile.sqlHaving "" ++ q.compile.sqlOrderBy "" ++ q.compile.sqlLimit ""
            ++ q.compile.sqlOffset ""))
    ∧ (q.directives_.filterMap Directive.asBy ≠ [] →
      q.sql.1 = (q.compile.sqlSelect ++ q.compile.sqlValues "" ++ q.compile.sqlFrom ""
          ++ q.compile.sqlWhere "")
        ++ (" GROUP BY " ++ ", ".intercalate
              ((q.directives_.filterMap Directive.asBy).map fun b => b.expr_.sql))
        ++ (q.compile.sqlHaving "" ++ q.compile.sqlOrderBy "" ++ q.compile.sqlLimit ""
            ++ q.compile.sqlOffset ""))
    ∧ (q.directives_.filter Directive.isValue = [] → q.compile.sqlValues "" = " *")
    ∧ (q.directives_.filter Directive.isValue ≠ [] →
        q.compile.sqlValues "" = " " ++ ", ".intercalate
          ((q.directives_.filter Directive.isValue).map Directive.sql))
    ∧ (q.directives_.filter Directive.isValue).filterMap Directive.asBy
        = q.directives_.filterMap Directive.asBy
    ∧ (∀ expr : Directive, (Directive.By expr).sql = expr.sql)
    ∧ (∀ (t : String) (compiled distinct : Bool) (limit : Option Limit)
        (offset : Option Offset),
        (((Dataquery.new compiled distinct limit offset).from_ t).append
          [.By (.Column "x")]).sql.1
          = "SELECT \"x\" FROM \"" ++ t ++ "\" GROUP BY \"x\"") := by
  have hb := Dataquery.compile_bys q hr.vectorsValid
  have hs := Dataquery.sql_eq_blocks q
  refine ⟨fun h0 => ?_, fun h1 => ?_, (Dataquery.sqlValues_text q hr.vectorsValid).1,
    (Dataquery.sqlValues_text q hr.vectorsValid).2, Dataquery.filterMap_asBy_filter_isValue _,
    fun _ => rfl, fun t compiled distinct limit offset => ?_⟩
  · have : q.compile.sqlGroupBy "" = "" := by simp [Dataquery.sqlGroupBy, hb, h0]
    rw [hs, this]; simp only [String.append_assoc]
  · have hpos : (q.directives_.filterMap Directive.asBy).length > 0 :=
      List.length_pos.mpr h1
    have : q.compile.sqlGroupBy "" = " GROUP BY " ++ ", ".intercalate
        ((q.directives_.filterMap Directive.asBy).map fun b => b.expr_.sql) := by
      simp only [Dataquery.sqlGroupBy, hb, hpos, if_true, appendEach_eq, String.empty_append]
      rfl
    rw [hs, this]; simp only [String.append_assoc]
  · show _ ++ (" FROM \"" ++ t ++ "\"") ++ " GROUP BY " ++ "\"x\"" = _
    simp only [String.append_assoc]
    rfl

/-- Witness for C8: on table `"t"`, the log `[By x, Column y, By z]`, and the log
`[Column y]` without a `By`. -/
theorem sql_by_in_select_list_and_group_by_witness :
    (((Dataquery.new true true none none).from_ "t").append
        [.By (.Column "x"), .Column "y", .By (.Column "z")]).directives_.filterMap
          Directive.asBy ≠ []
    ∧ (((Dataquery.new true true none none).from_ "t").append
        [.By (.Column "x"), .Column "y", .By (.Column "z")]).sql.1
      = "SELECT \"x\", \"y\", \"z\" FROM \"t\" GROUP BY \"x\", \"z\""
    ∧ (((Dataquery.new true true none none).from_ "t").append [.Column "y"]).sql.1
      = "SELECT \"y\" FROM \"t\"" :=
  ⟨List.cons_ne_nil _ _,
   ((sql_by_in_select_list_and_group_by
      (((Dataquery.new true true none none).from_ "t").append
        [.By (.Column "x"), .Column "y", .By (.Column "z")])
      (.append _ (.from_ _ (.new _ _ _)))).2.1 (List.cons_ne_nil _ _)).trans (by decide),
   ((sql_by_in_select_list_and_group_by
      (((Dataquery.new true true none none).from_ "t").append [.Column "y"])
      (.append _ (.from_ _ (.new _ _ _)))).1 rfl).trans (by decide)⟩

/-! ## The select list (C9) -/

/-- C9, counterexample.  On table `"t"` the log `[Constant<std::string>("*")]` holds a bare
directive, yet the select list that `sql()` writes is `" *"` and the text is
`SELECT * FROM "t"`: the select list being `" *"` is not equivalent to the log holding no
`By` and no bare directive. -/
theorem sql_select_list_star_counterexample :
    (((Dataquery.new false false none none).from_ "t").append
        [.ConstantString "*"]).sql.1 = "SELECT * FROM \"t\""
    ∧ ¬ ((((Dataquery.new false false none none).from_ "t").append
            [.ConstantString "*"]).compile.sqlValues "" = " *"
        ↔ (((Dataquery.new false false none none).from_ "t").append
            [.ConstantString "*"]).directives_.filter Directive.isValue = []) := by
  refine ⟨by decide, fun hiff => ?_⟩
  have hnil := hiff.mp (by decide)
  exact absurd hnil (List.cons_ne_nil _ _)

/-- C9, amended.  For every object a program can hold, the select list of `sql()`, the text
between the `SELECT`/`DISTINCT` block (lines 446-448) and the `FROM` clause, is `" *"` when
the log holds no `By` and no bare directive, whatever `Where`, `Having`, `Order`, `Limit`,
`Offset`, `Distinct` or `All` directives it holds, and otherwise is `" "` followed by the
relational forms of the `By` and bare directives of the log, in their append order, joined
by `", "`. -/
theorem sql_select_list {compiled : Bool} (q : Dataquery)
    (hr : Dataquery.Reachable compiled q) :
    (q.directives_.filter Directive.isValue = [] →
      q.sql.1 = q.compile.sqlSelect
        ++ " *"
        ++ (q.compile.sqlFrom "" ++ q.compile.sqlWhere "" ++ q.compile.sqlGroupBy ""
            ++ q.compile.sqlHaving "" ++ q.compile.sqlOrderBy "" ++ q.compile.sqlLimit ""
            ++ q.compile.sqlOffset ""))
    ∧ (q.directives_.filter Directive.isValue ≠ [] →
      q.sql.1 = q.compile.sqlSelect
        ++ (" " ++ ", ".intercalate
              ((q.directives_.filter Directive.isValue).map Directive.sql))
        ++ (q.compile.sqlFrom "" ++ q.compile.sqlWhere "" ++ q.compile.sqlGroupBy ""
            ++ q.compile.sqlHaving "" ++ q.compile.sqlOrderBy "" ++ q.compile.sqlLimit ""
            ++ q.compile.sqlOffset ""))
    ∧ (∀ d : Directive, d.isValue = true ↔ ((∃ expr, d = .By expr) ∨ d.isBare = true))
    ∧ (∀ (expr : Directive) (dir : CFloat),
        (Directive.Where expr).isValue = false ∧ (Directive.Having expr).isValue = false
        ∧ (Directive.Order expr dir).isValue = false ∧ (Directive.Limit expr).isValue = false
        ∧ (Directive.Offset expr).isValue = false ∧ Directive.Distinct.isValue = false
        ∧ Directive.All.isValue = false) := by
  have hs := Dataquery.sql_eq_blocks q
  refine ⟨fun h0 => ?_, fun h1 => ?_, fun d => ?_, fun _ _ => ⟨rfl, rfl, rfl, rfl, rfl, rfl, rfl⟩⟩
  · rw [hs, (Dataquery.sqlValues_text q hr.vectorsValid).1 h0]; simp only [String.append_assoc]
  · rw [hs, (Dataquery.sqlValues_text q hr.vectorsValid).2 h1]; simp only [String.append_assoc]
  · cases d <;> simp [Directive.isValue, Directive.isBare]

/-- Witness for C9: on table `"t"`, the log `[Where a, Column x, Distinct, By y]`, and the
log `[Where a, Distinct, Limit 1]` without a `By` or a bare directive. -/
theorem sql_select_list_witness :
    (((Dataquery.new true true none none).from_ "t").append
        [.Where (.Column "a"), .Column "x", .Distinct, .By (.Column "y")]).directives_.filter
          Directive.isValue ≠ []
    ∧ (((Dataquery.new true true none none).from_ "t").append
        [.Where (.Column "a"), .Column "x", .Distinct, .By (.Column "y")]).sql.1
      = "SELECT DISTINCT \"x\", \"y\" FROM \"t\" WHERE \"a\" GROUP BY \"y\""
    ∧ (((Dataquery.new true true none none).from_ "t").append
        [.Where (.Column "a"), .Distinct, .Limit (.ConstantInt 1)]).sql.1
      = "SELECT DISTINCT * FROM \"t\" WHERE \"a\" LIMIT 1" :=
  ⟨List.cons_ne_nil _ _,
   ((sql_select_list
      (((Dataquery.new true true none none).from_ "t").append
        [.Where (.Column "a"), .Column "x", .Distinct, .By (.Column "y")])
      (.append _ (.from_ _ (.new _ _ _)))).2.1 (List.cons_ne_nil _ _)).trans (by decide),
   ((sql_select_list
      (((Dataquery.new true true none none).from_ "t").append
        [.Where (.Column "a"), .Distinct, .Limit (.ConstantInt 1)])
      (.append _ (.from_ _ (.new _ _ _)))).1 rfl).trans (by decide)⟩

/-! ## The `ORDER BY` clause (C10) -/

/-- C10. For every object a program can hold: when the log holds an `Order` directive, the
text of `sql()` is the text of lines 446-488, the fragment `" ORDER BY "` followed by the
entries of the `Order` directives of the log in append order joined by `", "`, and the text
of lines 501-513; the entry of an `Order` is the relational form of its inner expression followed by `" ASC"` when its direction is
`> 0`, by `" DESC"` when it is `< 0` and by nothing otherwise, which is the case of the
direction `0`.  A new compiler given a table `t` renders `ORDER BY "x" DESC` for
`Order(Column("x"), -1)` and `ORDER BY "x" ASC` for `Order(Column("x"), 1)` and for
`Order(Column("x"))`. -/
theorem sql_order_by_fragment {compiled : Bool} (q : Dataquery)
    (hr : Dataquery.Reachable compiled q) :
    (q.directives_.filterMap Directive.asOrder ≠ [] →
      q.sql.1 = (q.compile.sqlSelect ++ q.compile.sqlValues "" ++ q.compile.sqlFrom ""
          ++ q.compile.sqlWhere "" ++ q.compile.sqlGroupBy "" ++ q.compile.sqlHaving "")
        ++ (" ORDER BY " ++ ", ".intercalate
              ((q.directives_.filterMap Directive.asOrder).map fun o =>
                o.expr_.sql ++ (if o.dir_.gtZero then " ASC"
                                else if o.dir_.ltZero then " DESC" else "")))
        ++ (q.compile.sqlLimit "" ++ q.compile.sqlOffset ""))
    ∧ (∀ dir : CFloat, (dir.ltZero = true → dir.gtZero = false)
        ∧ (dir.eqZero = true → dir.gtZero = false ∧ dir.ltZero = false))
    ∧ (∀ (t : String) (compiled distinct : Bool) (limit : Option Limit)
        (offset : Option Offset),
        (((Dataquery.new compiled distinct limit offset).from_ t).append
          [.Order (.Column "x") (CFloat.ofInt (-1))]).sql.1
          = "SELECT * FROM \"" ++ t ++ "\" ORDER BY \"x\" DESC"
        ∧ (((Dataquery.new compiled distinct limit offset).from_ t).append
          [.Order (.Column "x") (CFloat.ofInt 1)]).sql.1
          = "SELECT * FROM \"" ++ t ++ "\" ORDER BY \"x\" ASC"
        ∧ (((Dataquery.new compiled distinct limit offset).from_ t).append
          [.Order (.Column "x") CFloat.one]).sql.1
          = "SELECT * FROM \"" ++ t ++ "\" ORDER BY \"x\" ASC") := by
  have ho := Dataquery.compile_orders q hr.vectorsValid
  have hs := Dataquery.sql_eq_blocks q
  refine ⟨fun h1 => ?_, fun dir => ?_, fun t compiled distinct limit offset => ⟨?_, ?_, ?_⟩⟩
  · have hpos : (q.directives_.filterMap Directive.asOrder).length > 0 :=
      List.length_pos.mpr h1
    have : q.compile.sqlOrderBy "" = " ORDER BY " ++ ", ".intercalate
        ((q.directives_.filterMap Directive.asOrder).map fun o =>
          o.expr_.sql ++ (if o.dir_.gtZero then " ASC"
                          else if o.dir_.ltZero then " DESC" else "")) := by
      simp only [Dataquery.sqlOrderBy, ho, hpos, if_true, appendOrders_eq, String.empty_append]
      rfl
    rw [hs, this]; simp only [String.append_assoc]
  · cases dir with
    | nan neg => simp [CFloat.ltZero, CFloat.gtZero, CFloat.eqZero]
    | inf neg => cases neg <;> simp [CFloat.ltZero, CFloat.gtZero, CFloat.eqZero]
    | fin neg mant exp =>
      cases neg <;> simp [CFloat.ltZero, CFloat.gtZero, CFloat.eqZero]
  · show _ ++ (" FROM \"" ++ t ++ "\"") ++ " ORDER BY " ++ "\"x\"" ++ " DESC" = _
    simp only [String.append_assoc]
    rfl
  · show _ ++ (" FROM \"" ++ t ++ "\"") ++ " ORDER BY " ++ "\"x\"" ++ " ASC" = _
    simp only [String.append_assoc]
    rfl
  · show _ ++ (" FROM \"" ++ t ++ "\"") ++ " ORDER BY " ++ "\"x\"" ++ " ASC" = _
    simp only [String.append_assoc]
    rfl

/-- Witness for C10: the log `[Order(x, -1), Order(y, 0), Order(z)]` on table `"t"`. -/
theorem sql_order_by_fragment_witness :
    (((Dataquery.new false false none none).from_ "t").append
        [.Order (.Column "x") (CFloat.ofInt (-1)), .Order (.Column "y") (CFloat.ofInt 0),
         .Order (.Column "z") CFloat.one]).directives_.filterMap Directive.asOrder ≠ []
    ∧ (((Dataquery.new false false none none).from_ "t").append
        [.Order (.Column "x") (CFloat.ofInt (-1)), .Order (.Column "y") (CFloat.ofInt 0),
         .Order (.Column "z") CFloat.one]).sql.1
      = "SELECT * FROM \"t\" ORDER BY \"x\" DESC, \"y\", \"z\" ASC" :=
  ⟨List.cons_ne_nil _ _,
   ((sql_order_by_fragment
      (((Dataquery.new false false none none).from_ "t").append
        [.Order (.Column "x") (CFloat.ofInt (-1)), .Order (.Column "y") (CFloat.ofInt 0),
         .Order (.Column "z") CFloat.one])
      (.append _ (.from_ _ (.new _ _ _)))).1 (List.cons_ne_nil _ _)).trans (by decide)⟩

/-! ## Lemmas: printing an integer direction -/

theorem toDigitsCore_eq_digits (f : Nat) : ∀ (m : Nat) (ds : List Char), 0 < m → m < f →
    Nat.toDigitsCore 10 f m ds = ((Nat.digits 10 m).reverse.map Nat.digitChar) ++ ds := by
  induction f with
  | zero => intro m ds _ h; omega
  | succ f ih =>
    intro m ds hm hf
    rw [Nat.toDigitsCore]
    have hd : Nat.digits 10 m = (m % 10) :: Nat.digits 10 (m / 10) :=
      Nat.digits_def' (by decide) hm
    by_cases h0 : m / 10 = 0
    · simp only [h0, if_true]
      rw [hd, h0, Nat.digits_zero]
      rfl
    · simp only [h0, if_false]
      have hpos : 0 < m / 10 := Nat.pos_of_ne_zero h0
      have hlt : m / 10 < f := by omega
      rw [ih (m / 10) _ hpos hlt, hd]
      simp

theorem toDigits_eq_digits (m : Nat) (hm : 0 < m) :
    Nat.toDigits 10 m = (Nat.digits 10 m).reverse.map Nat.digitChar := by
  rw [Nat.toDigits, toDigitsCore_eq_digits (m + 1) m [] hm (Nat.lt_succ_self m)]
  simp

theorem toDigits_mul_pow (m j : Nat) (hm : 0 < m) :
    Nat.toDigits 10 (m * 10 ^ j) = Nat.toDigits 10 m ++ List.replicate j '0' := by
  have hpos : 0 < m * 10 ^ j := Nat.mul_pos hm (Nat.pow_pos (by decide))
  rw [toDigits_eq_digits _ hpos, toDigits_eq_digits _ hm, Nat.mul_comm,
    Nat.digits_base_pow_mul (by decide) hm]
  simp only [List.reverse_append, List.reverse_replicate, List.map_append, List.map_replicate]
  rfl

theorem toDigits_length_pos (m : Nat) (hm : 0 < m) : 0 < (Nat.toDigits 10 m).length := by
  rw [toDigits_eq_digits _ hm]
  simp only [List.length_map, List.length_reverse]
  exact List.length_pos.mpr (Nat.digits_ne_nil_iff_ne_zero.mpr (Nat.pos_iff_ne_zero.mp hm))

theorem lt_pow_toDigits_length (m : Nat) (hm : 0 < m) : m < 10 ^ (Nat.toDigits 10 m).length := by
  rw [toDigits_eq_digits _ hm]
  simp only [List.length_map, List.length_reverse]
  exact Nat.lt_base_pow_length_digits (by decide)

theorem toDigits_length_le (m e : Nat) (hm : 0 < m) (h : m < 10 ^ e) :
    (Nat.toDigits 10 m).length ≤ e := by
  rw [toDigits_eq_digits _ hm]
  simp only [List.length_map, List.length_reverse]
  have h1 := Nat.base_pow_length_digits_le 10 m (by decide) (Nat.pos_iff_ne_zero.mp hm)
  have h2 : 10 ^ (Nat.digits 10 m).length < 10 ^ (e + 1) := by
    rw [Nat.pow_succ]; omega
  have h3 := (Nat.pow_lt_pow_iff_right (by decide : 1 < 10)).mp h2
  omega

theorem repr_length (n : Nat) : (Nat.repr n).length = (Nat.toDigits 10 n).length := rfl

theorem repr_toList (n : Nat) : (Nat.repr n).toList = Nat.toDigits 10 n := rfl

theorem decimalExponent_integer (n : Nat) (hn : 0 < n) :
    decimalExponent n 1 = (((Nat.toDigits 10 n).length - 1 : Nat) : Int) := by
  unfold decimalExponent
  rw [if_pos (Nat.succ_le_of_lt hn), Nat.div_one, repr_length]

theorem significand9_integer (n k : Nat) (hk1 : 1 ≤ k) (hk9 : k ≤ 9) :
    significand9 n 1 ((k - 1 : Nat) : Int) = n * 10 ^ (9 - k) := by
  unfold significand9
  have hX : ((k - 1 : Nat) : Int) ≤ 8 := by omega
  have he : (8 - ((k - 1 : Nat) : Int)).toNat = 9 - k := by omega
  simp only [hX, if_true, he, Nat.div_one, Nat.mod_one]
  simp

theorem stripZeros_replicate (j : Nat) : stripZeros (List.replicate j '0') = [] := by
  unfold stripZeros
  rw [List.reverse_replicate]
  have : List.dropWhile (fun c => c == '0') (List.replicate j '0') = [] := by
    induction j with
    | zero => rfl
    | succ j ih => rw [List.replicate_succ, List.dropWhile_cons]; simp [ih]
  rw [this]; rfl

/-- An integer of at most nine digits is printed in full by `%.9g`. -/
theorem formatG9_integer (n : Nat) (hn : 0 < n) (h9 : n < 10 ^ 9) :
    formatG9 n 1 = Nat.repr n := by
  have hk1 : 1 ≤ (Nat.toDigits 10 n).length := toDigits_length_pos n hn
  have hk9 : (Nat.toDigits 10 n).length ≤ 9 := toDigits_length_le n 9 hn h9
  have hlt : n < 10 ^ (Nat.toDigits 10 n).length := lt_pow_toDigits_length n hn
  generalize hk : (Nat.toDigits 10 n).length = k at hk1 hk9 hlt
  have hm : n * 10 ^ (9 - k) < 10 ^ 9 := by
    calc n * 10 ^ (9 - k) < 10 ^ k * 10 ^ (9 - k) :=
          Nat.mul_lt_mul_of_pos_right hlt (Nat.pow_pos (by decide))
      _ = 10 ^ 9 := by rw [← Nat.pow_add]; congr 1; omega
  have hds : (Nat.repr (n * 10 ^ (9 - k))).toList
      = Nat.toDigits 10 n ++ List.replicate (9 - k) '0' := by
    rw [repr_toList, toDigits_mul_pow n _ hn]
  unfold formatG9
  simp only [decimalExponent_integer n hn, hk, significand9_integer n k hk1 hk9,
    Nat.not_le.mpr hm, if_false, hds]
  have hX1 : ¬ (((k - 1 : Nat) : Int) < -4 ∨ 9 ≤ ((k - 1 : Nat) : Int)) := by omega
  have hX2 : (0 : Int) ≤ ((k - 1 : Nat) : Int) := by omega
  have hX3 : ((k - 1 : Nat) : Int).toNat + 1 = k := by omega
  simp only [hX1, hX2, if_false, if_true, hX3]
  rw [← hk, List.drop_left, List.take_left, stripZeros_replicate]
  simp [Nat.repr, List.asString]

theorem ofInt_small (d : Int) (h : d.natAbs < 2 ^ 24) :
    CFloat.ofInt d = CFloat.fin (decide (d < 0)) d.natAbs 0 := by
  unfold CFloat.ofInt
  simp only [h, if_true]

theorem lexicalCastFloat_integer (neg : Bool) (n : Nat) (h9 : n < 10 ^ 9) :
    lexicalCastFloat (CFloat.fin neg n 0) = (if neg then "-" else "") ++ Nat.repr n := by
  unfold lexicalCastFloat
  by_cases h0 : n = 0
  · subst h0; simp; rfl
  · have hn : 0 < n := Nat.pos_of_ne_zero h0
    simp only [h0, if_false, le_refl, if_true, Int.toNat_zero, Nat.pow_zero, Nat.mul_one]
    rw [formatG9_integer n hn h9]

theorem neOne_integer (neg : Bool) (n : Nat) :
    (CFloat.fin neg n 0).neOne = !(!neg && n == 1) := by
  simp [CFloat.neOne]

/-- The notation text of an integer direction that `float` holds exactly. -/
theorem lexicalCastFloat_ofInt (d : Int) (h : d.natAbs ≤ 2 ^ 24) :
    lexicalCastFloat (CFloat.ofInt d) = toString d
    ∧ (CFloat.ofInt d).neOne = decide (d ≠ 1) := by
  rcases Nat.lt_or_ge d.natAbs (2 ^ 24) with hlt | hge
  · rw [ofInt_small d hlt, lexicalCastFloat_integer _ _ (by omega), neOne_integer]
    cases d with
    | ofNat n =>
      have h1 : decide ((Int.ofNat n) < 0) = false := by simp
      rw [h1]
      refine ⟨by simp; rfl, ?_⟩
      by_cases hn : n = 1
      · subst hn; rfl
      · have : (Int.ofNat n) ≠ 1 := by
          intro hc; apply hn; exact Int.ofNat.inj hc
        simp [hn, this]
    | negSucc m =>
      have h1 : decide ((Int.negSucc m) < 0) = true := by simp [Int.negSucc_lt_zero]
      rw [h1]
      refine ⟨rfl, ?_⟩
      have : (Int.negSucc m) ≠ 1 := by intro hc; cases hc
      simp [this]
  · have heq : d.natAbs = 2 ^ 24 := Nat.le_antisymm h hge
    rcases Int.natAbs_eq d with hd | hd
    · rw [heq] at hd; subst hd; exact ⟨by decide, by decide⟩
    · rw [heq] at hd; subst hd; exact ⟨by decide, by decide⟩

theorem order_dql_eq (e : Directive) (dir : CFloat) :
    (Directive.Order e dir).dql
      = "order(" ++ e.dql ++ (if dir.neOne then "," ++ lexicalCastFloat dir else "") ++ ")" := by
  rw [Directive.dql]
  cases dir.neOne <;> simp

/-! ## The notation form of `Order` (C11) -/

/-- C11, counterexample.  `Order(Column("x"), 16777217)` stores its direction in a `float`,
which holds 16777216 in its place, and renders `order(x,16777216)`;
`Order(Column("x"), 1000000000)` renders `order(x,1e+09)`.  Neither is `order(x,` followed by
the decimal numeral of the integer and `)`. -/
theorem order_dql_large_integer_counterexample :
    (Directive.Order (.Column "x") (CFloat.ofInt 16777217)).dql = "order(x,16777216)"
    ∧ ¬ ((Directive.Order (.Column "x") (CFloat.ofInt 16777217)).dql
          = "order(" ++ (Directive.Column "x").dql ++ "," ++ toString (16777217 : Int) ++ ")")
    ∧ (Directive.Order (.Column "x") (CFloat.ofInt 1000000000)).dql = "order(x,1e+09)"
    ∧ ¬ ((Directive.Order (.Column "x") (CFloat.ofInt 1000000000)).dql
          = "order(" ++ (Directive.Column "x").dql ++ "," ++ toString (1000000000 : Int) ++ ")") := by
  decide

/-- C11, amended.  For every inner directive `e`, the notation form of `Order(e, dir)` is
`"order(" ++ e.dql()`, then `","` and the text of the `float` direction when the direction
is not 1, then `")"`; with the direction defaulted, and `e` of any class other than `Order`,
`Order(e).dql()` is `"order(" ++ e.dql() ++ ")"`.  For every integer `d` with
`|d| ≤ 16777216 = 2^24`, which `float` holds exactly, `Order(e, d).dql()` is
`"order(" ++ e.dql() ++ ")"` when `d = 1` and
`"order(" ++ e.dql() ++ "," ++ decimal(d) ++ ")"` when `d ≠ 1`; so `Order(Column("x"), 1)`
renders `order(x)`, `Order(Column("x"), 2)` renders `order(x,2)` and
`Order(Column("x"), -1)` renders `order(x,-1)`. -/
theorem order_dql_form (e : Directive) (d : Int) (hd : d.natAbs ≤ 2 ^ 24) :
    (∀ dir : CFloat, (Directive.Order e dir).dql
      = "order(" ++ e.dql ++ (if dir.neOne then "," ++ lexicalCastFloat dir else "") ++ ")")
    ∧ (e.asOrder = none → (Directive.constructOrder e).dql = "order(" ++ e.dql ++ ")")
    ∧ (d = 1 → (Directive.Order e (CFloat.ofInt d)).dql = "order(" ++ e.dql ++ ")")
    ∧ (d ≠ 1 → (Directive.Order e (CFloat.ofInt d)).dql
        = "order(" ++ e.dql ++ "," ++ toString d ++ ")")
    ∧ (Directive.Order (.Column "x") (CFloat.ofInt 1)).dql = "order(x)"
    ∧ (Directive.constructOrder (.Column "x")).dql = "order(x)"
    ∧ (Directive.Order (.Column "x") (CFloat.ofInt 2)).dql = "order(x,2)"
    ∧ (Directive.Order (.Column "x") (CFloat.ofInt (-1))).dql = "order(x,-1)" := by
  have h := lexicalCastFloat_ofInt d hd
  refine ⟨order_dql_eq e, fun h0 => ?_, fun h1 => ?_, fun h1 => ?_,
    by decide, by decide, by decide, by decide⟩
  · have hc : Directive.constructOrder e = Directive.Order e CFloat.one := by
      cases e <;> first | rfl | simp [Directive.asOrder] at h0
    rw [hc, order_dql_eq]
    have : CFloat.one.neOne = false := by decide
    rw [this]; simp
  · rw [order_dql_eq, h.2]
    simp [h1]
  · rw [order_dql_eq, h.2, h.1]
    simp [h1, String.append_assoc]

/-- Witness for C11: the directions 2, -1 and 16777216 on `Column("x")`, and the defaulted
direction on `Column("x")`. -/
theorem order_dql_form_witness :
    (2 : Int).natAbs ≤ 2 ^ 24
    ∧ (Directive.Order (.Column "x") (CFloat.ofInt 2)).dql
        = "order(" ++ (Directive.Column "x").dql ++ "," ++ toString (2 : Int) ++ ")"
    ∧ (Directive.Order (.Column "x") (CFloat.ofInt (-1))).dql
        = "order(" ++ (Directive.Column "x").dql ++ "," ++ toString (-1 : Int) ++ ")"
    ∧ (Directive.Order (.Column "x") (CFloat.ofInt 16777216)).dql
        = "order(" ++ (Directive.Column "x").dql ++ "," ++ toString (16777216 : Int) ++ ")"
    ∧ (Directive.Column "x").asOrder = none
    ∧ (Directive.constructOrder (.Column "x")).dql
        = "order(" ++ (Directive.Column "x").dql ++ ")" :=
  ⟨by decide,
   (order_dql_form (.Column "x") 2 (by decide)).2.2.2.1 (by decide),
   (order_dql_form (.Column "x") (-1) (by decide)).2.2.2.1 (by decide),
   (order_dql_form (.Column "x") 16777216 (by decide)).2.2.2.1 (by decide),
   rfl,
   (order_dql_form (.Column "x") 2 (by decide)).2.1 rfl⟩

/-! ## Rendering twice (C12) -/

/-- C12. For every compiler state, `sql()` called a second time with no `append` in between
returns the string of the first call; after the first call `compiled_` is set, so that the
`compile()` of the second call skips the classification and returns the object as it is, and
the second call leaves the whole object (flag, buckets, log and table) unchanged. -/
theorem sql_twice_same_text_and_no_reclassification (q : Dataquery) :
    q.sql.2.sql.1 = q.sql.1
    ∧ q.sql.2.compiled_ = true
    ∧ q.sql.2.compile = q.sql.2
    ∧ q.sql.2.sql.2 = q.sql.2 := by
  have hc : q.sql.2.compiled_ = true := Dataquery.compile_compiled q
  have hid : q.sql.2.compile = q.sql.2 := Dataquery.compile_eq_self _ hc
  refine ⟨?_, hc, hid, hid⟩
  show Dataquery.sqlOffset q.sql.2.compile _ = Dataquery.sqlOffset q.compile _
  rw [hid]
  rfl

/-! ## The `HAVING` clause brackets as the `WHERE` clause (C13) -/

/-- C13. Let `e1..en` be inner expressions, `q₁` a compiler whose `Having` directives are
`Having(e1)..Having(en)` and `q₂` a compiler whose `Where` directives are
`Where(e1)..Where(en)`.  The `HAVING` fragment of `q₁.sql()`, the text written between the
`GROUP BY` and the `ORDER BY` blocks, and the `WHERE` fragment of `q₂.sql()`, the text
written between the `FROM` and the `GROUP BY` blocks, follow one rule and differ in the
keyword only: both are empty for `n = 0`, they are `" HAVING " ++ e1.sql` and
`" WHERE " ++ e1.sql` for `n = 1`, and `" HAVING ("`, respectively `" WHERE ("`, followed by
the relational forms joined by `") AND ("` and by `")"` for `n ≥ 2`. -/
theorem sql_having_fragment_brackets_as_where {c₁ c₂ : Bool} (q₁ q₂ : Dataquery)
    (hr₁ : Dataquery.Reachable c₁ q₁) (hr₂ : Dataquery.Reachable c₂ q₂)
    (es : List Directive)
    (hhavings : q₁.directives_.filterMap Directive.asHaving = es.map Having.mk)
    (hwheres : q₂.directives_.filterMap Directive.asWhere = es.map Where.mk) :
    q₁.sql.1 = (q₁.compile.sqlSelect ++ q₁.compile.sqlValues "" ++ q₁.compile.sqlFrom ""
        ++ q₁.compile.sqlWhere "" ++ q₁.compile.sqlGroupBy "")
      ++ q₁.compile.sqlHaving ""
      ++ (q₁.compile.sqlOrderBy "" ++ q₁.compile.sqlLimit "" ++ q₁.compile.sqlOffset "")
    ∧ q₂.sql.1 = (q₂.compile.sqlSelect ++ q₂.compile.sqlValues "" ++ q₂.compile.sqlFrom "")
      ++ q₂.compile.sqlWhere ""
      ++ (q₂.compile.sqlGroupBy "" ++ q₂.compile.sqlHaving "" ++ q₂.compile.sqlOrderBy ""
          ++ q₂.compile.sqlLimit "" ++ q₂.compile.sqlOffset "")
    ∧ (es = [] → q₁.compile.sqlHaving "" = "" ∧ q₂.compile.sqlWhere "" = "")
    ∧ (∀ e : Directive, es = [e] →
        q₁.compile.sqlHaving "" = " HAVING " ++ e.sql
        ∧ q₂.compile.sqlWhere "" = " WHERE " ++ e.sql)
    ∧ (2 ≤ es.length →
        q₁.compile.sqlHaving ""
          = " HAVING (" ++ ") AND (".intercalate (es.map Directive.sql) ++ ")"
        ∧ q₂.compile.sqlWhere ""
          = " WHERE (" ++ ") AND (".intercalate (es.map Directive.sql) ++ ")") := by
  have hh := Dataquery.compile_havings q₁ hr₁.vectorsValid
  have hw := Dataquery.compile_wheres q₂ hr₂.vectorsValid
  rw [hhavings] at hh
  rw [hwheres] at hw
  have th := Dataquery.sqlHaving_text q₁.compile
  have tw := Dataquery.sqlWhere_text q₂.compile
  rw [hh] at th
  rw [hw] at tw
  refine ⟨?_, ?_, fun h0 => ?_, fun e h1 => ?_, fun h2 => ?_⟩
  · rw [Dataquery.sql_eq_blocks]; simp only [String.append_assoc]
  · rw [Dataquery.sql_eq_blocks]; simp only [String.append_assoc]
  · subst h0; exact ⟨th.1 rfl, tw.1 rfl⟩
  · subst h1; exact ⟨th.2.1 ⟨e⟩ rfl, tw.2.1 ⟨e⟩ rfl⟩
  · have e1 : (es.map Having.mk).map (fun w => w.expr_.sql) = es.map Directive.sql := by
      rw [List.map_map]; rfl
    have e2 : (es.map Where.mk).map (fun w => w.expr_.sql) = es.map Directive.sql := by
      rw [List.map_map]; rfl
    have r1 := th.2.2 (by rw [List.length_map]; exact h2)
    have r2 := tw.2.2 (by rw [List.length_map]; exact h2)
    rw [e1] at r1
    rw [e2] at r2
    exact ⟨r1, r2⟩

/-- Witness for C13: on table `"t"`, the logs `[Having a, Having b]` and
`[Where a, Where b]`. -/
theorem sql_having_fragment_brackets_as_where_witness :
    (((Dataquery.new true true none none).from_ "t").append
        [.Having (.Column "a"), .Having (.Column "b")]).sql.1
      = "SELECT * FROM \"t\" HAVING (\"a\") AND (\"b\")"
    ∧ (((Dataquery.new true true none none).from_ "t").append
        [.Where (.Column "a"), .Where (.Column "b")]).sql.1
      = "SELECT * FROM \"t\" WHERE (\"a\") AND (\"b\")"
    ∧ (((Dataquery.new true true none none).from_ "t").append
        [.Having (.Column "a"), .Having (.Column "b")]).compile.sqlHaving ""
      = " HAVING (" ++ ") AND (".intercalate
          ([Directive.Column "a", Directive.Column "b"].map Directive.sql) ++ ")"
    ∧ (((Dataquery.new true true none none).from_ "t").append
        [.Where (.Column "a"), .Where (.Column "b")]).compile.sqlWhere ""
      = " WHERE (" ++ ") AND (".intercalate
          ([Directive.Column "a", Directive.Column "b"].map Directive.sql) ++ ")" :=
  ⟨by decide, by decide,
   (sql_having_fragment_brackets_as_where
      (((Dataquery.new true true none none).from_ "t").append
        [.Having (.Column "a"), .Having (.Column "b")])
      (((Dataquery.new true true none none).from_ "t").append
        [.Where (.Column "a"), .Where (.Column "b")])
      (.append _ (.from_ _ (.new _ _ _))) (.append _ (.from_ _ (.new _ _ _)))
      [.Column "a", .Column "b"] rfl rfl).2.2.2.2 (by decide)⟩

/-! ## `append` (C14) -/

/-- C14. `append(d1, ..., dn)` gives the object that `append(d1)`, ..., `append(dn)` give
one after the other, its log being the old log followed by `d1, ..., dn` and its table the
old table; its `compiled_` flag is clear when `n ≥ 1`; and `append()` with no argument returns
the object unchanged. -/
theorem append_pushes_in_argument_order (q : Dataquery) (dirs : List Directive) :
    q.append dirs = dirs.foldl (fun acc d => acc.append [d]) q
    ∧ (q.append dirs).directives_ = q.directives_ ++ dirs
    ∧ (q.append dirs).table_ = q.table_
    ∧ (dirs ≠ [] → (q.append dirs).compiled_ = false)
    ∧ q.append [] = q := by
  refine ⟨?_, Dataquery.append_directives q dirs, Dataquery.append_table q dirs, ?_, rfl⟩
  · induction dirs generalizing q with
    | nil => rfl
    | cons d rest ih => rw [Dataquery.append, ih, List.foldl_cons]; rfl
  · intro hne
    cases dirs with
    | nil => exact absurd rfl hne
    | cons d rest => exact Dataquery.append_compiled q d rest

/-! ## `from` (C15) -/

/-- C15. `from(name)` sets the table to `name` and leaves the log, the `compiled_` flag and
every bucket as they were.  For every compiler state, after `from(a)` then `from(b)` the
object is the one `from(b)` alone gives; `dql()` is then `b`, `"["`, the notation forms of
the log and `"]"`, and `sql()` is the clause texts of the object as it was before either
call with `" FROM \"" ++ b ++ "\""` as its `FROM` clause, so `a` takes no part; the same
holds when `dql()` or `sql()` has run, and cached the classification, between `from(a)` and
`from(b)`. -/
theorem from_overwrites_table_only (q : Dataquery) (a b : String) :
    ((q.from_ a).table_ = a ∧ (q.from_ a).directives_ = q.directives_
      ∧ (q.from_ a).compiled_ = q.compiled_ ∧ (q.from_ a).distinct_ = q.distinct_
      ∧ (q.from_ a).values_ = q.values_ ∧ (q.from_ a).wheres_ = q.wheres_
      ∧ (q.from_ a).bys_ = q.bys_ ∧ (q.from_ a).havings_ = q.havings_
      ∧ (q.from_ a).orders_ = q.orders_ ∧ (q.from_ a).limit_ = q.limit_
      ∧ (q.from_ a).offset_ = q.offset_)
    ∧ (q.from_ a).from_ b = q.from_ b
    ∧ ((q.from_ a).from_ b).dql.1
        = b ++ "[" ++ ",".intercalate (q.directives_.map Directive.dql) ++ "]"
    ∧ ((q.from_ a).from_ b).sql.1
        = q.compile.sqlSelect ++ q.compile.sqlValues "" ++ (" FROM \"" ++ b ++ "\"")
          ++ q.compile.sqlWhere "" ++ q.compile.sqlGroupBy "" ++ q.compile.sqlHaving ""
          ++ q.compile.sqlOrderBy "" ++ q.compile.sqlLimit "" ++ q.compile.sqlOffset ""
    ∧ ((q.from_ a).sql.2.from_ b).dql.1
        = b ++ "[" ++ ",".intercalate (q.directives_.map Directive.dql) ++ "]"
    ∧ ((q.from_ a).sql.2.from_ b).sql.1
        = q.compile.sqlSelect ++ q.compile.sqlValues "" ++ (" FROM \"" ++ b ++ "\"")
          ++ q.compile.sqlWhere "" ++ q.compile.sqlGroupBy "" ++ q.compile.sqlHaving ""
          ++ q.compile.sqlOrderBy "" ++ q.compile.sqlLimit "" ++ q.compile.sqlOffset ""
    ∧ ((q.from_ a).dql.2.from_ b).sql.1
        = q.compile.sqlSelect ++ q.compile.sqlValues "" ++ (" FROM \"" ++ b ++ "\"")
          ++ q.compile.sqlWhere "" ++ q.compile.sqlGroupBy "" ++ q.compile.sqlHaving ""
          ++ q.compile.sqlOrderBy "" ++ q.compile.sqlLimit "" ++ q.compile.sqlOffset "" := by
  have hrender : (q.from_ a).sql.2.from_ b = q.compile.from_ b := by
    show ((q.from_ a).compile).from_ b = _
    rw [Dataquery.compile_from]
    rfl
  have hcc : q.compile.compile = q.compile :=
    Dataquery.compile_eq_self _ (Dataquery.compile_compiled q)
  have hafter : (q.compile.from_ b).sql.1
      = q.compile.sqlSelect ++ q.compile.sqlValues "" ++ (" FROM \"" ++ b ++ "\"")
        ++ q.compile.sqlWhere "" ++ q.compile.sqlGroupBy "" ++ q.compile.sqlHaving ""
        ++ q.compile.sqlOrderBy "" ++ q.compile.sqlLimit "" ++ q.compile.sqlOffset "" := by
    rw [Dataquery.sql_from_text, hcc]
  refine ⟨⟨rfl, rfl, rfl, rfl, rfl, rfl, rfl, rfl, rfl, rfl, rfl⟩, rfl, ?_, ?_, ?_, ?_, ?_⟩
  · rw [Dataquery.from_from, Dataquery.dql_from_text]
  · rw [Dataquery.from_from, Dataquery.sql_from_text]
  · rw [hrender, Dataquery.dql_from_text, Dataquery.compile_directives]
  · rw [hrender, hafter]
  · have : (q.from_ a).dql.2.from_ b = q.compile.from_ b := hrender
    rw [this, hafter]

/-! ## Binary operators (C16) -/

/-- C16. For every binary opcode and operands `l`, `r`, the notation form is `l.dql()`, the
notation symbol, `r.dql()` and the relational form is `l.sql()`, the relational symbol,
`r.sql()`, nothing else being added; the symbols are `*`, `/`, `+`, `-`, `==`, `!=`, `<`,
`<=`, `>`, `>=` in both forms for `Multiply`, `Divide`, `Plus`, `Subtract`, `Equal`,
`NotEqual`, `LessThan`, `LessThanEqual`, `GreaterThan`, `GreaterThanEqual`, `" and "` and
`" AND "` for `And`, `" or "` and `" OR "` for `Or`. -/
theorem binary_operator_forms :
    (∀ (code : BinaryCode) (l r : Directive),
      (Directive.BinaryOperator code l r).dql = l.dql ++ code.dql_symbol ++ r.dql
      ∧ (Directive.BinaryOperator code l r).sql = l.sql ++ code.sql_symbol ++ r.sql)
    ∧ (BinaryCode.Multiply.dql_symbol = "*" ∧ BinaryCode.Multiply.sql_symbol = "*")
    ∧ (BinaryCode.Divide.dql_symbol = "/" ∧ BinaryCode.Divide.sql_symbol = "/")
    ∧ (BinaryCode.Plus.dql_symbol = "+" ∧ BinaryCode.Plus.sql_symbol = "+")
    ∧ (BinaryCode.Subtract.dql_symbol = "-" ∧ BinaryCode.Subtract.sql_symbol = "-")
    ∧ (BinaryCode.Equal.dql_symbol = "==" ∧ BinaryCode.Equal.sql_symbol = "==")
    ∧ (BinaryCode.NotEqual.dql_symbol = "!=" ∧ BinaryCode.NotEqual.sql_symbol = "!=")
    ∧ (BinaryCode.LessThan.dql_symbol = "<" ∧ BinaryCode.LessThan.sql_symbol = "<")
    ∧ (BinaryCode.LessThanEqual.dql_symbol = "<="
        ∧ BinaryCode.LessThanEqual.sql_symbol = "<=")
    ∧ (BinaryCode.GreaterThan.dql_symbol = ">" ∧ BinaryCode.GreaterThan.sql_symbol = ">")
    ∧ (BinaryCode.GreaterThanEqual.dql_symbol = ">="
        ∧ BinaryCode.GreaterThanEqual.sql_symbol = ">=")
    ∧ (BinaryCode.And.dql_symbol = " and " ∧ BinaryCode.And.sql_symbol = " AND ")
    ∧ (BinaryCode.Or.dql_symbol = " or " ∧ BinaryCode.Or.sql_symbol = " OR ")
    ∧ (Directive.BinaryOperator .And
          (.BinaryOperator .GreaterThan (.Column "a") (.ConstantInt 1))
          (.BinaryOperator .Equal (.Column "b") (.ConstantInt 2))).dql = "a>1 and b==2"
    ∧ (Directive.BinaryOperator .And
          (.BinaryOperator .GreaterThan (.Column "a") (.ConstantInt 1))
          (.BinaryOperator .Equal (.Column "b") (.ConstantInt 2))).sql
        = "\"a\">1 AND \"b\"==2" :=
  ⟨fun _ _ _ => ⟨rfl, rfl⟩, ⟨rfl, rfl⟩, ⟨rfl, rfl⟩, ⟨rfl, rfl⟩, ⟨rfl, rfl⟩, ⟨rfl, rfl⟩,
    ⟨rfl, rfl⟩, ⟨rfl, rfl⟩, ⟨rfl, rfl⟩, ⟨rfl, rfl⟩, ⟨rfl, rfl⟩, ⟨rfl, rfl⟩, ⟨rfl, rfl⟩,
    by decide, by decide⟩

/-! ## Unary operators (C17) -/

/-- C17. The methods `dql()` and `sql()` of a `UnaryOperator<Code>` object return the symbol
of the opcode followed by the corresponding form of the stored operand, as a bare prefix; the
symbols are `+` and `+` for `Positive`, `-` and `-` for `Negative`, `!` and `not` for `Not`.
The expression `UnaryOperator<Code>(e)` stores `e` as the operand when `e` is of any other
class, so that its forms are the symbol followed by the forms of `e`: `Not(Column("x"))`
renders `!x` and `not"x"`, and `Not(Negative(Column("x")))` renders `!-x`.  When `e` is
itself a `UnaryOperator<Code>` of the same opcode, the expression is a copy of `e` and has
the forms of `e`, without a second symbol: `Negative(Negative(Column("x")))` renders `-x`
and `-"x"`, not `--x` and `--"x"`, and `Not(Not(Column("x")))` renders `!x` and `not"x"`. -/
theorem unary_operator_forms :
    (∀ (code : UnaryCode) (e : Directive),
      (Directive.UnaryOperator code e).dql = code.dql_symbol ++ e.dql
      ∧ (Directive.UnaryOperator code e).sql = code.sql_symbol ++ e.sql)
    ∧ (UnaryCode.Positive.dql_symbol = "+" ∧ UnaryCode.Positive.sql_symbol = "+")
    ∧ (UnaryCode.Negative.dql_symbol = "-" ∧ UnaryCode.Negative.sql_symbol = "-")
    ∧ (UnaryCode.Not.dql_symbol = "!" ∧ UnaryCode.Not.sql_symbol = "not")
    ∧ (∀ (code : UnaryCode) (e : Directive),
        (∀ operand : Directive, e ≠ Directive.UnaryOperator code operand) →
        (Directive.constructUnaryOperator code e).dql = code.dql_symbol ++ e.dql
        ∧ (Directive.constructUnaryOperator code e).sql = code.sql_symbol ++ e.sql)
    ∧ (∀ (code : UnaryCode) (operand : Directive),
        Directive.constructUnaryOperator code (Directive.UnaryOperator code operand)
          = Directive.UnaryOperator code operand)
    ∧ (Directive.constructUnaryOperator .Not (.Column "x")).dql = "!x"
    ∧ (Directive.constructUnaryOperator .Not (.Column "x")).sql = "not\"x\""
    ∧ (Directive.constructUnaryOperator .Not
          (Directive.constructUnaryOperator .Negative (.Column "x"))).dql = "!-x"
    ∧ (Directive.constructUnaryOperator .Negative
          (Directive.constructUnaryOperator .Negative (.Column "x"))).dql = "-x"
    ∧ (Directive.constructUnaryOperator .Negative
          (Directive.constructUnaryOperator .Negative (.Column "x"))).sql = "-\"x\""
    ∧ ¬ ((Directive.constructUnaryOperator .Negative
          (Directive.constructUnaryOperator .Negative (.Column "x"))).dql
        = UnaryCode.Negative.dql_symbol
            ++ (Directive.constructUnaryOperator .Negative (.Column "x")).dql)
    ∧ (Directive.constructUnaryOperator .Not
          (Directive.constructUnaryOperator .Not (.Column "x"))).dql = "!x"
    ∧ (Directive.constructUnaryOperator .Not
          (Directive.constructUnaryOperator .Not (.Column "x"))).sql = "not\"x\"" := by
  refine ⟨fun _ _ => ⟨rfl, rfl⟩, ⟨rfl, rfl⟩, ⟨rfl, rfl⟩, ⟨rfl, rfl⟩, ?_, ?_,
    by decide, by decide, by decide, by decide, by decide, by decide, by decide, by decide⟩
  · intro code e h
    have hc : Directive.constructUnaryOperator code e = Directive.UnaryOperator code e := by
      cases e with
      | UnaryOperator code' operand =>
        have hne : ¬ code' = code := fun hcode => h operand (by rw [hcode])
        simp [Directive.constructUnaryOperator, hne]
      | _ => rfl
    rw [hc]
    exact ⟨rfl, rfl⟩
  · intro code operand
    simp [Directive.constructUnaryOperator]

/-! ## Clause wrappers (C18) -/

/-- C18. For every stored inner directive `e` and direction `d`, the method `sql()` of a
`Where`, `By`, `Having`, `Limit`, `Offset` or `Order` object returns `e.sql()` itself, and
the method `dql()` of a `Where`, `By`, `Having`, `Limit` or `Offset` object returns
`where(`, `by(`, `having(`, `limit(` or `offset(` followed by `e.dql()` and `)`.  The
relational form of each of the expressions `Where(e)`, `By(e)`, `Having(e)`, `Limit(e)`,
`Offset(e)`, `Order(e)` and `Order(e, d)` is `e.sql()` for every `e`.  The notation form of
`Where(e)` is `"where(" ++ e.dql() ++ ")"` when `e` is of any class other than `Where`, and
likewise for the other four: `Where(By(Column("e")))` renders `where(by(e))`.  When `e` is
itself of the class constructed, the expression is a copy of `e` and no keyword is added:
`Where(Where(Column("e")))` renders `where(e)`, `Limit(Limit(5))` renders `limit(5)` and
`Order(Order(Column("e"), -1))` renders `order(e,-1)`. -/
theorem clause_forms (e : Directive) (d : CFloat) :
    ((Directive.Where e).sql = e.sql ∧ (Directive.By e).sql = e.sql
      ∧ (Directive.Having e).sql = e.sql ∧ (Directive.Limit e).sql = e.sql
      ∧ (Directive.Offset e).sql = e.sql ∧ (Directive.Order e d).sql = e.sql)
    ∧ ((Directive.Where e).dql = "where(" ++ e.dql ++ ")"
      ∧ (Directive.By e).dql = "by(" ++ e.dql ++ ")"
      ∧ (Directive.Having e).dql = "having(" ++ e.dql ++ ")"
      ∧ (Directive.Limit e).dql = "limit(" ++ e.dql ++ ")"
      ∧ (Directive.Offset e).dql = "offset(" ++ e.dql ++ ")")
    ∧ ((Directive.constructWhere e).sql = e.sql ∧ (Directive.constructBy e).sql = e.sql
      ∧ (Directive.constructHaving e).sql = e.sql ∧ (Directive.constructLimit e).sql = e.sql
      ∧ (Directive.constructOffset e).sql = e.sql ∧ (Directive.constructOrder e).sql = e.sql)
    ∧ ((e.asWhere = none → (Directive.constructWhere e).dql = "where(" ++ e.dql ++ ")")
      ∧ (e.asBy = none → (Directive.constructBy e).dql = "by(" ++ e.dql ++ ")")
      ∧ (e.asHaving = none → (Directive.constructHaving e).dql = "having(" ++ e.dql ++ ")")
      ∧ (e.asLimit = none → (Directive.constructLimit e).dql = "limit(" ++ e.dql ++ ")")
      ∧ (e.asOffset = none → (Directive.constructOffset e).dql = "offset(" ++ e.dql ++ ")"))
    ∧ (Directive.constructWhere (.Where e) = .Where e
      ∧ Directive.constructBy (.By e) = .By e
      ∧ Directive.constructHaving (.Having e) = .Having e
      ∧ Directive.constructLimit (.Limit e) = .Limit e
      ∧ Directive.constructOffset (.Offset e) = .Offset e
      ∧ Directive.constructOrder (.Order e d) = .Order e d)
    ∧ (Directive.constructWhere (Directive.constructBy (.Column "e"))).dql = "where(by(e))"
    ∧ (Directive.constructWhere (Directive.constructWhere (.Column "e"))).dql = "where(e)"
    ∧ ¬ ((Directive.constructWhere (Directive.constructWhere (.Column "e"))).dql
          = "where(" ++ (Directive.constructWhere (.Column "e")).dql ++ ")")
    ∧ (Directive.constructLimit (Directive.constructLimit (.ConstantInt 5))).dql = "limit(5)"
    ∧ ¬ ((Directive.constructLimit (Directive.constructLimit (.ConstantInt 5))).dql
          = "limit(" ++ (Directive.constructLimit (.ConstantInt 5)).dql ++ ")")
    ∧ (Directive.constructOrder (.Order (.Column "e") (CFloat.ofInt (-1)))).dql
        = "order(e,-1)" := by
  refine ⟨⟨rfl, rfl, rfl, rfl, rfl, rfl⟩, ⟨rfl, rfl, rfl, rfl, rfl⟩, ?_, ?_,
    ⟨rfl, rfl, rfl, rfl, rfl, rfl⟩, by decide, by decide, by decide, by decide, by decide,
    by decide⟩
  · refine ⟨?_, ?_, ?_, ?_, ?_, ?_⟩ <;> cases e <;> rfl
  · refine ⟨fun h => ?_, fun h => ?_, fun h => ?_, fun h => ?_, fun h => ?_⟩
    · have hc : Directive.constructWhere e = Directive.Where e := by
        cases e <;> first | rfl | simp [Directive.asWhere] at h
      rw [hc]; rfl
    · have hc : Directive.constructBy e = Directive.By e := by
        cases e <;> first | rfl | simp [Directive.asBy] at h
      rw [hc]; rfl
    · have hc : Directive.constructHaving e = Directive.Having e := by
        cases e <;> first | rfl | simp [Directive.asHaving] at h
      rw [hc]; rfl
    · have hc : Directive.constructLimit e = Directive.Limit e := by
        cases e <;> first | rfl | simp [Directive.asLimit] at h
      rw [hc]; rfl
    · have hc : Directive.constructOffset e = Directive.Offset e := by
        cases e <;> first | rfl | simp [Directive.asOffset] at h
      rw [hc]; rfl

/-! ## Function calls (C19) -/

/-- C19. For every name and every list of arguments, empty or not, both forms of
`Call(name, a1, ..., an)` are the name, `"("`, the corresponding forms of the arguments in
the order given joined by `", "`, and `")"`; with no argument both are `name ++ "()"`. -/
theorem call_forms (name : String) (args : List Directive) :
    (Directive.Call name args).dql
      = name ++ "(" ++ ", ".intercalate (args.map Directive.dql) ++ ")"
    ∧ (Directive.Call name args).sql
      = name ++ "(" ++ ", ".intercalate (args.map Directive.sql) ++ ")"
    ∧ (Directive.Call name []).dql = name ++ "()"
    ∧ (Directive.Call name []).sql = name ++ "()" := by
  refine ⟨?_, ?_, ?_, ?_⟩
  · rw [Directive.dql, Directive.dqlArgs_eq_map, join_eq_intercalate]
  · rw [Directive.sql, Directive.sqlArgs_eq_map, join_eq_intercalate]
  · show name ++ "(" ++ "" ++ ")" = name ++ "()"
    rw [String.append_empty, String.append_assoc]; rfl
  · show name ++ "(" ++ "" ++ ")" = name ++ "()"
    rw [String.append_empty, String.append_assoc]; rfl

/-! ## Leaves (C20) -/

/-- C20. For every string `s`, `Column(s)` renders as `s` in notation and as `s` between two
double quotes in relational form, with no escaping, also when `s` holds a double quote; a
string constant renders as `s` itself, unquoted, in both forms; an integer constant renders
as its decimal numeral in both forms. -/
theorem leaf_forms :
    (∀ s : String, (Directive.Column s).dql = s ∧ (Directive.Column s).sql = "\"" ++ s ++ "\"")
    ∧ (Directive.Column "a\"b").sql = "\"a\"b\""
    ∧ (∀ s : String, (Directive.ConstantString s).dql = s ∧ (Directive.ConstantString s).sql = s)
    ∧ (∀ v : Int, (Directive.ConstantInt v).dql = toString v
        ∧ (Directive.ConstantInt v).sql = toString v)
    ∧ (Directive.ConstantInt 100).sql = "100"
    ∧ (Directive.ConstantInt (-7)).dql = "-7"
    ∧ (Directive.ConstantString "a b").sql = "a b" := by
  refine ⟨fun _ => ⟨rfl, rfl⟩, by decide, fun _ => ⟨rfl, rfl⟩, fun v => ?_, by decide,
    by decide, by decide⟩
  cases v <;> exact ⟨rfl, rfl⟩

/-! ## `append` invalidates the cache (C21) -/

/-- C21. For every compiler state `q`, whatever its flag and buckets hold, and every
directive `d`: after `append(d)` the next `sql()` returns the text, and leaves the object,
that a newly constructed compiler given the same table and the whole extended log returns and
leaves; afterwards `compiled_` is set, the log is the old log followed by `d`, and the
buckets are the classification of that whole log. -/
theorem append_then_sql_reclassifies (q : Dataquery) (d : Directive) :
    (∀ (compiled distinct : Bool) (limit : Option Limit) (offset : Option Offset),
      (q.append [d]).sql
        = (((Dataquery.new compiled distinct limit offset).from_ q.table_).append
            (q.directives_ ++ [d])).sql)
    ∧ (q.append [d]).sql.2.compiled_ = true
    ∧ (q.append [d]).sql.2.table_ = q.table_
    ∧ (q.append [d]).sql.2.directives_ = q.directives_ ++ [d]
    ∧ (q.append [d]).sql.2.values_ = (q.directives_ ++ [d]).filter Directive.isValue
    ∧ (q.append [d]).sql.2.wheres_ = (q.directives_ ++ [d]).filterMap Directive.asWhere
    ∧ (q.append [d]).sql.2.bys_ = (q.directives_ ++ [d]).filterMap Directive.asBy
    ∧ (q.append [d]).sql.2.havings_ = (q.directives_ ++ [d]).filterMap Directive.asHaving
    ∧ (q.append [d]).sql.2.orders_ = (q.directives_ ++ [d]).filterMap Directive.asOrder
    ∧ (q.append [d]).sql.2.limit_
        = ((q.directives_ ++ [d]).filterMap Directive.asLimit).getLast?
    ∧ (q.append [d]).sql.2.offset_
        = ((q.directives_ ++ [d]).filterMap Directive.asOffset).getLast?
    ∧ (q.append [d]).sql.2.distinct_
        = (((q.directives_ ++ [d]).filterMap Directive.asMarker).getLast?).getD false := by
  have hstale : (q.append [d]).compiled_ = false := Dataquery.append_compiled q d []
  have hcons : (q.append [d]).Consistent := Dataquery.consistent_of_stale _ hstale
  have hvec := Dataquery.vectorsValid_of_consistent hcons
  have hlog : (q.append [d]).directives_ = q.directives_ ++ [d] :=
    Dataquery.append_directives q [d]
  have h2 : (q.append [d]).sql.2 = (q.append [d]).compile := rfl
  refine ⟨fun compiled distinct limit offset => ?_, Dataquery.compile_compiled _, ?_, ?_, ?_,
    ?_, ?_, ?_, ?_, ?_, ?_, ?_⟩
  · apply Dataquery.sql_congr_compile
    apply Dataquery.compile_stale_congr _ _ hstale
    · exact Dataquery.append_ne_nil_compiled _ _ (by simp)
    · rw [hlog, Dataquery.append_directives]; rfl
    · rw [Dataquery.append_table, Dataquery.append_table]; rfl
  · rw [h2, Dataquery.compile_table, Dataquery.append_table]
  · rw [h2, Dataquery.compile_directives, hlog]
  · rw [h2, Dataquery.compile_values _ hvec, hlog]
  · rw [h2, Dataquery.compile_wheres _ hvec, hlog]
  · rw [h2, Dataquery.compile_bys _ hvec, hlog]
  · rw [h2, Dataquery.compile_havings _ hvec, hlog]
  · rw [h2, Dataquery.compile_orders _ hvec, hlog]
  · rw [h2, Dataquery.compile_limit _ hcons, hlog]
  · rw [h2, Dataquery.compile_offset _ hcons, hlog]
  · rw [h2, Dataquery.compile_distinct _ hcons, hlog]

/-! ## A newly constructed compiler (C22) -/

/-- C22. The renders of a newly constructed compiler to which nothing has been appended.
`dql()` returns `table ++ "[]"` whatever the members hold.  `sql()` returns
`SELECT * FROM "table"` when `compiled_` starts clear; when the uninitialised `compiled_`
reads set, `compile()` skips the reset of lines 386-393 and `sql()` writes what the other
uninitialised members hold: `SELECT DISTINCT * FROM "t"` when `distinct_` reads set, and a
`LIMIT` and an `OFFSET` clause when the two pointers read as non-null. -/
theorem new_compiler_renders :
    (∀ (t : String) (compiled distinct : Bool) (limit : Option Limit)
        (offset : Option Offset),
        ((Dataquery.new compiled distinct limit offset).from_ t).dql.1 = t ++ "[]")
    ∧ (∀ (t : String) (distinct : Bool) (limit : Option Limit) (offset : Option Offset),
        ((Dataquery.new false distinct limit offset).from_ t).sql.1
          = "SELECT * FROM \"" ++ t ++ "\"")
    ∧ ((Dataquery.new true true none none).from_ "t").sql.1 = "SELECT DISTINCT * FROM \"t\""
    ∧ ((Dataquery.new true false (some ⟨.ConstantInt 7⟩) (some ⟨.ConstantInt 9⟩)).from_
          "t").sql.1 = "SELECT * FROM \"t\" LIMIT 7 OFFSET 9"
    ∧ ((Dataquery.new true true none none).from_ "t").sql.1 ≠ "SELECT * FROM \"t\"" := by
  refine ⟨fun t compiled distinct limit offset => ?_, fun t distinct limit offset => ?_,
    by decide, by decide, by decide⟩
  · rw [Dataquery.dql_eq_text]
    show t ++ "[" ++ "" ++ "]" = t ++ "[]"
    rw [String.append_empty, String.append_assoc]; rfl
  · show "SELECT" ++ " *" ++ (" FROM \"" ++ t ++ "\"") = _
    simp only [String.append_assoc]
    rfl

/-! ## Markers in the notation output (C23) -/

/-- C23. `Distinct` and `All` render as the empty string in both forms and still take a slot
between commas in the notation output: for every table `t` and every newly constructed
compiler, the log `[Distinct, Column("x")]` renders as `t ++ "[,x]"`, the log `[All]`
renders as `t ++ "[]"`, and so does the empty log. -/
theorem markers_render_empty (t : String) (compiled distinct : Bool) (limit : Option Limit)
    (offset : Option Offset) :
    (Directive.Distinct.dql = "" ∧ Directive.Distinct.sql = ""
      ∧ Directive.All.dql = "" ∧ Directive.All.sql = "")
    ∧ (((Dataquery.new compiled distinct limit offset).from_ t).append
        [.Distinct, .Column "x"]).dql.1 = t ++ "[,x]"
    ∧ (((Dataquery.new compiled distinct limit offset).from_ t).append [.All]).dql.1
        = t ++ "[]"
    ∧ ((Dataquery.new compiled distinct limit offset).from_ t).dql.1 = t ++ "[]"
    ∧ (((Dataquery.new compiled distinct limit offset).from_ t).append [.All]).dql.1
        = ((Dataquery.new compiled distinct limit offset).from_ t).dql.1 := by
  have h1 : (((Dataquery.new compiled distinct limit offset).from_ t).append
      [.Distinct, .Column "x"]).dql.1 = t ++ "[,x]" := by
    rw [Dataquery.dql_eq_text, Dataquery.append_table]
    show t ++ "[" ++ ",x" ++ "]" = t ++ "[,x]"
    simp only [String.append_assoc]
    rfl
  have h2 : (((Dataquery.new compiled distinct limit offset).from_ t).append [.All]).dql.1
      = t ++ "[]" := by
    rw [Dataquery.dql_eq_text, Dataquery.append_table]
    show t ++ "[" ++ "" ++ "]" = t ++ "[]"
    rw [String.append_empty, String.append_assoc]; rfl
  have h3 : ((Dataquery.new compiled distinct limit offset).from_ t).dql.1 = t ++ "[]" := by
    rw [Dataquery.dql_eq_text]
    show t ++ "[" ++ "" ++ "]" = t ++ "[]"
    rw [String.append_empty, String.append_assoc]; rfl
  exact ⟨⟨rfl, rfl, rfl, rfl⟩, h1, h2, h3, h2.trans h3.symm⟩

/-! ## Trees that render alike in both forms (C25) -/

mutual
theorem dql_eq_sql_of_common_kinds (markers : Bool) :
    ∀ d : Directive, d.builtFromCommonKinds markers = true → d.dql = d.sql
  | .Column _, h => by simp [Directive.builtFromCommonKinds] at h
  | .ConstantInt _, _ => rfl
  | .ConstantString _, _ => rfl
  | .Call name args, h => by
    have ha := dqlArgs_eq_sqlArgs_of_common_kinds markers args
      (by simpa [Directive.builtFromCommonKinds] using h)
    rw [Directive.dql, Directive.sql, ha]
  | .Group expr, h => by
    have he := dql_eq_sql_of_common_kinds markers expr
      (by simpa [Directive.builtFromCommonKinds] using h)
    rw [Directive.dql, Directive.sql, he]
  | .UnaryOperator code expr, h => by
    cases code with
    | Not => simp [Directive.builtFromCommonKinds] at h
    | Positive =>
      have he := dql_eq_sql_of_common_kinds markers expr
        (by simpa [Directive.builtFromCommonKinds] using h)
      rw [Directive.dql, Directive.sql, he]; rfl
    | Negative =>
      have he := dql_eq_sql_of_common_kinds markers expr
        (by simpa [Directive.builtFromCommonKinds] using h)
      rw [Directive.dql, Directive.sql, he]; rfl
  | .BinaryOperator code left right, h => by
    have hlr : left.builtFromCommonKinds markers = true
        ∧ right.builtFromCommonKinds markers = true := by
      cases code <;> simp_all [Directive.builtFromCommonKinds]
    have hsym : code.dql_symbol = code.sql_symbol := by
      cases code <;> first | rfl | simp [Directive.builtFromCommonKinds] at h
    have hl := dql_eq_sql_of_common_kinds markers left hlr.1
    have hr := dql_eq_sql_of_common_kinds markers right hlr.2
    rw [Directive.dql, Directive.sql, hl, hr, hsym]
  | .Distinct, _ => rfl
  | .All, _ => rfl
  | .Where _, h => by simp [Directive.builtFromCommonKinds] at h
  | .By _, h => by simp [Directive.builtFromCommonKinds] at h
  | .Having _, h => by simp [Directive.builtFromCommonKinds] at h
  | .Order _ _, h => by simp [Directive.builtFromCommonKinds] at h
  | .Limit _, h => by simp [Directive.builtFromCommonKinds] at h
  | .Offset _, h => by simp [Directive.builtFromCommonKinds] at h
theorem dqlArgs_eq_sqlArgs_of_common_kinds (markers : Bool) :
    ∀ args : List Directive, Directive.allBuiltFromCommonKinds markers args = true →
      Directive.dqlArgs args = Directive.sqlArgs args
  | [], _ => rfl
  | arg :: rest, h => by
    have hh : arg.builtFromCommonKinds markers = true
        ∧ Directive.allBuiltFromCommonKinds markers rest = true := by
      simpa [Directive.allBuiltFromCommonKinds] using h
    rw [Directive.dqlArgs, Directive.sqlArgs, dql_eq_sql_of_common_kinds markers arg hh.1,
      dqlArgs_eq_sqlArgs_of_common_kinds markers rest hh.2]
end

/-- C25. A directive tree built only from integer and string constants, `Group`, `Call`,
`Positive`, `Negative` and the arithmetic and comparison binary operators has the same
notation form and relational form.  The two forms of a tree can differ only when it holds a
`Column`, a `Not`, an `And`, an `Or` or a clause wrapper: a tree holding none of them, markers
allowed, has equal forms; and each of these kinds does make the forms differ. -/
theorem forms_agree_on_common_kinds (d : Directive) :
    (d.builtFromCommonKinds false = true → d.dql = d.sql)
    ∧ (d.dql ≠ d.sql → d.builtFromCommonKinds true = false)
    ∧ (Directive.Column "x").dql ≠ (Directive.Column "x").sql
    ∧ (Directive.UnaryOperator .Not (.ConstantInt 1)).dql
        ≠ (Directive.UnaryOperator .Not (.ConstantInt 1)).sql
    ∧ (Directive.BinaryOperator .And (.ConstantInt 1) (.ConstantInt 2)).dql
        ≠ (Directive.BinaryOperator .And (.ConstantInt 1) (.ConstantInt 2)).sql
    ∧ (Directive.BinaryOperator .Or (.ConstantInt 1) (.ConstantInt 2)).dql
        ≠ (Directive.BinaryOperator .Or (.ConstantInt 1) (.ConstantInt 2)).sql
    ∧ (Directive.Where (.ConstantInt 1)).dql ≠ (Directive.Where (.ConstantInt 1)).sql
    ∧ (Directive.By (.ConstantInt 1)).dql ≠ (Directive.By (.ConstantInt 1)).sql
    ∧ (Directive.Having (.ConstantInt 1)).dql ≠ (Directive.Having (.ConstantInt 1)).sql
    ∧ (Directive.Order (.ConstantInt 1) CFloat.one).dql
        ≠ (Directive.Order (.ConstantInt 1) CFloat.one).sql
    ∧ (Directive.Limit (.ConstantInt 1)).dql ≠ (Directive.Limit (.ConstantInt 1)).sql
    ∧ (Directive.Offset (.ConstantInt 1)).dql ≠ (Directive.Offset (.ConstantInt 1)).sql
    ∧ (Directive.Call "f" [.Group (.BinaryOperator .Plus (.ConstantInt 1)
          (.UnaryOperator .Negative (.ConstantString "a"))),
          .BinaryOperator .LessThanEqual (.ConstantInt 2) (.ConstantInt 3)]).dql
        = "f((1+-a), 2<=3)"
    ∧ (Directive.Call "f" [.Group (.BinaryOperator .Plus (.ConstantInt 1)
          (.UnaryOperator .Negative (.ConstantString "a"))),
          .BinaryOperator .LessThanEqual (.ConstantInt 2) (.ConstantInt 3)]).sql
        = "f((1+-a), 2<=3)" := by
  refine ⟨dql_eq_sql_of_common_kinds false d, fun hne => ?_, by decide, by decide, by decide,
    by decide, by decide, by decide, by decide, by decide, by decide, by decide, by decide,
    by decide⟩
  cases hb : d.builtFromCommonKinds true with
  | false => rfl
  | true => exact absurd (dql_eq_sql_of_common_kinds true d hb) hne

/-! ## Rendering without parentheses (C24) -/

/-- C24. For all directives `a`, `b`, `c`, the two different trees
`Multiply(Plus(a, b), c)` and `Plus(a, Multiply(b, c))` have the same notation form and the
same relational form, no parentheses being inserted, while `Multiply(Group(Plus(a, b)), c)`
renders with the parentheses of the `Group` and differs from both in both forms. -/
theorem rendering_is_not_injective (a b c : Directive) :
    Directive.BinaryOperator .Multiply (.BinaryOperator .Plus a b) c
      ≠ Directive.BinaryOperator .Plus a (.BinaryOperator .Multiply b c)
    ∧ (Directive.BinaryOperator .Multiply (.BinaryOperator .Plus a b) c).dql
      = (Directive.BinaryOperator .Plus a (.BinaryOperator .Multiply b c)).dql
    ∧ (Directive.BinaryOperator .Multiply (.BinaryOperator .Plus a b) c).sql
      = (Directive.BinaryOperator .Plus a (.BinaryOperator .Multiply b c)).sql
    ∧ (Directive.BinaryOperator .Multiply (.Group (.BinaryOperator .Plus a b)) c).dql
      = "(" ++ a.dql ++ "+" ++ b.dql ++ ")" ++ "*" ++ c.dql
    ∧ (Directive.BinaryOperator .Multiply (.Group (.BinaryOperator .Plus a b)) c).sql
      = "(" ++ a.sql ++ "+" ++ b.sql ++ ")" ++ "*" ++ c.sql
    ∧ (Directive.BinaryOperator .Multiply (.Group (.BinaryOperator .Plus a b)) c).dql
      ≠ (Directive.BinaryOperator .Multiply (.BinaryOperator .Plus a b) c).dql
    ∧ (Directive.BinaryOperator .Multiply (.Group (.BinaryOperator .Plus a b)) c).dql
      ≠ (Directive.BinaryOperator .Plus a (.BinaryOperator .Multiply b c)).dql
    ∧ (Directive.BinaryOperator .Multiply (.Group (.BinaryOperator .Plus a b)) c).sql
      ≠ (Directive.BinaryOperator .Multiply (.BinaryOperator .Plus a b) c).sql
    ∧ (Directive.BinaryOperator .Multiply (.Group (.BinaryOperator .Plus a b)) c).sql
      ≠ (Directive.BinaryOperator .Plus a (.BinaryOperator .Multiply b c)).sql := by
  have hd1 : (Directive.BinaryOperator .Multiply (.BinaryOperator .Plus a b) c).dql
      = a.dql ++ "+" ++ b.dql ++ "*" ++ c.dql := rfl
  have hd2 : (Directive.BinaryOperator .Plus a (.BinaryOperator .Multiply b c)).dql
      = a.dql ++ "+" ++ b.dql ++ "*" ++ c.dql := by
    show a.dql ++ "+" ++ (b.dql ++ "*" ++ c.dql) = _
    simp only [String.append_assoc]
  have hs1 : (Directive.BinaryOperator .Multiply (.BinaryOperator .Plus a b) c).sql
      = a.sql ++ "+" ++ b.sql ++ "*" ++ c.sql := rfl
  have hs2 : (Directive.BinaryOperator .Plus a (.BinaryOperator .Multiply b c)).sql
      = a.sql ++ "+" ++ b.sql ++ "*" ++ c.sql := by
    show a.sql ++ "+" ++ (b.sql ++ "*" ++ c.sql) = _
    simp only [String.append_assoc]
  have hd3 : (Directive.BinaryOperator .Multiply (.Group (.BinaryOperator .Plus a b)) c).dql
      = "(" ++ a.dql ++ "+" ++ b.dql ++ ")" ++ "*" ++ c.dql := by
    show "(" ++ (a.dql ++ "+" ++ b.dql) ++ ")" ++ "*" ++ c.dql = _
    simp only [String.append_assoc]
  have hs3 : (Directive.BinaryOperator .Multiply (.Group (.BinaryOperator .Plus a b)) c).sql
      = "(" ++ a.sql ++ "+" ++ b.sql ++ ")" ++ "*" ++ c.sql := by
    show "(" ++ (a.sql ++ "+" ++ b.sql) ++ ")" ++ "*" ++ c.sql = _
    simp only [String.append_assoc]
  have hlen : ∀ x y z : String,
      "(" ++ x ++ "+" ++ y ++ ")" ++ "*" ++ z ≠ x ++ "+" ++ y ++ "*" ++ z := by
    intro x y z heq
    have := congrArg String.length heq
    simp only [String.length_append] at this
    have h1 : "(".length = 1 := rfl
    have h2 : ")".length = 1 := rfl
    omega
  refine ⟨?_, hd1.trans hd2.symm, hs1.trans hs2.symm, hd3, hs3, ?_, ?_, ?_, ?_⟩
  · intro heq
    injection heq with hcode
    cases hcode
  · rw [hd3, hd1]; exact hlen _ _ _
  · rw [hd3, hd2]; exact hlen _ _ _
  · rw [hs3, hs1]; exact hlen _ _ _
  · rw [hs3, hs2]; exact hlen _ _ _

/-! ## Classification looks at the top-level kind only (C26) -/

/-- C26. For every inner directive `e`, every table `t` and every newly constructed
compiler: the log `[Call("f", Limit(e))]` and the log `[Group(Where(e))]` put their one
directive into the select list and give no `LIMIT` slot, no `WHERE` entry and no such clause,
the texts being `SELECT f(e) FROM "t"` and `SELECT (e) FROM "t"` with `e` in relational form;
the log `[Where(Limit(e))]` gives the one `WHERE` entry and no `LIMIT` slot, the text being
`SELECT * FROM "t" WHERE ` followed by `e.sql()`. -/
theorem classification_reads_top_level_kind (e : Directive) (t : String)
    (compiled distinct : Bool) (limit : Option Limit) (offset : Option Offset) :
    ((((Dataquery.new compiled distinct limit offset).from_ t).append
        [.Call "f" [.Limit e]]).sql.1 = "SELECT f(" ++ e.sql ++ ") FROM \"" ++ t ++ "\""
      ∧ (((Dataquery.new compiled distinct limit offset).from_ t).append
        [.Call "f" [.Limit e]]).compile.values_ = [.Call "f" [.Limit e]]
      ∧ (((Dataquery.new compiled distinct limit offset).from_ t).append
        [.Call "f" [.Limit e]]).compile.limit_ = none
      ∧ (((Dataquery.new compiled distinct limit offset).from_ t).append
        [.Call "f" [.Limit e]]).compile.wheres_ = []
      ∧ (((Dataquery.new compiled distinct limit offset).from_ t).append
        [.Call "f" [.Limit e]]).compile.sqlLimit "" = ""
      ∧ (((Dataquery.new compiled distinct limit offset).from_ t).append
        [.Call "f" [.Limit e]]).compile.sqlWhere "" = "")
    ∧ ((((Dataquery.new compiled distinct limit offset).from_ t).append
        [.Group (.Where e)]).sql.1 = "SELECT (" ++ e.sql ++ ") FROM \"" ++ t ++ "\""
      ∧ (((Dataquery.new compiled distinct limit offset).from_ t).append
        [.Group (.Where e)]).compile.values_ = [.Group (.Where e)]
      ∧ (((Dataquery.new compiled distinct limit offset).from_ t).append
        [.Group (.Where e)]).compile.limit_ = none
      ∧ (((Dataquery.new compiled distinct limit offset).from_ t).append
        [.Group (.Where e)]).compile.wheres_ = []
      ∧ (((Dataquery.new compiled distinct limit offset).from_ t).append
        [.Group (.Where e)]).compile.sqlLimit "" = ""
      ∧ (((Dataquery.new compiled distinct limit offset).from_ t).append
        [.Group (.Where e)]).compile.sqlWhere "" = "")
    ∧ ((((Dataquery.new compiled distinct limit offset).from_ t).append
        [.Where (.Limit e)]).sql.1 = "SELECT * FROM \"" ++ t ++ "\" WHERE " ++ e.sql
      ∧ (((Dataquery.new compiled distinct limit offset).from_ t).append
        [.Where (.Limit e)]).compile.wheres_ = [⟨.Limit e⟩]
      ∧ (((Dataquery.new compiled distinct limit offset).from_ t).append
        [.Where (.Limit e)]).compile.sqlWhere "" = " WHERE " ++ e.sql
      ∧ (((Dataquery.new compiled distinct limit offset).from_ t).append
        [.Where (.Limit e)]).compile.values_ = []
      ∧ (((Dataquery.new compiled distinct limit offset).from_ t).append
        [.Where (.Limit e)]).compile.limit_ = none
      ∧ (((Dataquery.new compiled distinct limit offset).from_ t).append
        [.Where (.Limit e)]).compile.sqlLimit "" = "") := by
  refine ⟨⟨?_, rfl, rfl, rfl, rfl, rfl⟩, ⟨?_, rfl, rfl, rfl, rfl, rfl⟩,
    ⟨?_, rfl, ?_, rfl, rfl, rfl⟩⟩
  · show "SELECT" ++ " " ++ ("f" ++ "(" ++ e.sql ++ ")") ++ (" FROM \"" ++ t ++ "\"") = _
    simp only [String.append_assoc]
    rfl
  · show "SELECT" ++ " " ++ ("(" ++ e.sql ++ ")") ++ (" FROM \"" ++ t ++ "\"") = _
    simp only [String.append_assoc]
    rfl
  · show "SELECT" ++ " *" ++ (" FROM \"" ++ t ++ "\"") ++ " WHERE " ++ e.sql = _
    simp only [String.append_assoc]
    rfl
  · show "" ++ " WHERE " ++ e.sql = _
    rfl

end Stencila
